import Mathlib

/-!
Verification development for the netemulator control-plane core.

Shallow embedding of:
  * the topology data model (`netemulator/models/topology.py`),
  * the static-routing planner (`netemulator/utils/routing.py`),
  * the topology compiler (`netemulator/control/compiler.py`),
  * the impairment engine (`netemulator/impairments/netem.py`),
  * the scenario scheduler (`netemulator/control/scheduler.py`).

Python values are modelled as plain Lean data: IPv4 addresses are `Nat`
(the 32-bit integer value of the dotted quad), dictionaries are
association lists in insertion order, and fallible code returns
`Except`/`Option`.
-/

namespace Netemu

/-! ## Topology data model (`models/topology.py`) -/

/-- `NodeType` enum: switch / router / host. -/
inductive NodeType where
  | switch
  | router
  | host
deriving DecidableEq, Repr

/-- `Node` model.  `asn` is `Optional[int]`; `daemons`/`services` are the
string lists of the pydantic model.  Free-form `config` is never read by
the verified code and is omitted. -/
structure Node where
  id : String
  type : NodeType
  asn : Option Nat := none
  daemons : List String := []
  services : List String := []
deriving DecidableEq, Repr

/-- `Link` model.  The `params` record (bandwidth, delay, loss, ...) is
never read by any of the functions verified here and is omitted. -/
structure Link where
  src : String
  dst : String
deriving DecidableEq, Repr

/-- `Topology` model: name plus ordered node and link lists. -/
structure Topology where
  name : String
  nodes : List Node
  links : List Link
deriving DecidableEq, Repr

/-- `Topology.get_node`: first node whose id matches, else `None`. -/
def Topology.getNode (t : Topology) (nodeId : String) : Option Node :=
  t.nodes.find? (fun n => n.id == nodeId)

/-- Truthiness of `node and node.type.value == 'switch'` for an optional
node lookup result (a missing node is falsy in Python). -/
def isSwitchId (t : Topology) (nodeId : String) : Bool :=
  match t.getNode nodeId with
  | some n =>
    match n.type with
    | NodeType.switch => true
    | _ => false
  | none => false

/-! ## Address assignment (`utils/routing.py`, `assign_node_ips`)

The default pool is `10.0.0.0/16`.  `subnets(new_prefix=24)` yields the
256 consecutive /24 blocks of the pool and `subnets(new_prefix=30)`
yields its 16384 consecutive /30 blocks; the two iterators advance
independently over the same pool.  `hosts()[0]` / `hosts()[1]` are the
first and second usable addresses of a block, i.e. network address + 1
and + 2. -/

/-- Integer value of 10.0.0.0. -/
def baseAddr : Nat := 167772160

/-- One entry of the dictionary returned by `assign_node_ips`:
`{src, dst, prefix, src_node, dst_node}` (prefix length stored as `plen`) with the two addresses as
32-bit integers. -/
structure IPAlloc where
  src : Nat
  dst : Nat
  plen : Nat
  src_node : String
  dst_node : String
deriving DecidableEq, Repr

/-- The loop body of `assign_node_ips`, walking links in input order and
carving from the /24 iterator (cursor `c24`) or the /30 iterator (cursor
`c30`).  Iterator exhaustion (`StopIteration`) raises
`ValueError("Ran out of subnets in 10.0.0.0/16")`.  The Python dict is
keyed by `f"{link.src}-{link.dst}"`; the association list below keeps
every carve in insertion order (a duplicate key would overwrite in the
dict, which can only shrink the result set). -/
def assignGo (t : Topology) : List Link → Nat → Nat → Except String (List (String × IPAlloc))
  | [], _, _ => .ok []
  | lk :: rest, c24, c30 =>
    let isSwitchLink := isSwitchId t lk.src || isSwitchId t lk.dst
    if isSwitchLink then
      if c24 < 256 then
        let start := baseAddr + c24 * 256
        match assignGo t rest (c24 + 1) c30 with
        | .ok tl => .ok ((lk.src ++ "-" ++ lk.dst,
            { src := start + 1, dst := start + 2, plen := 24,
              src_node := lk.src, dst_node := lk.dst }) :: tl)
        | .error e => .error e
      else .error "Ran out of subnets in 10.0.0.0/16"
    else
      if c30 < 16384 then
        let start := baseAddr + c30 * 4
        match assignGo t rest c24 (c30 + 1) with
        | .ok tl => .ok ((lk.src ++ "-" ++ lk.dst,
            { src := start + 1, dst := start + 2, plen := 30,
              src_node := lk.src, dst_node := lk.dst }) :: tl)
        | .error e => .error e
      else .error "Ran out of subnets in 10.0.0.0/16"

/-- `assign_node_ips(topology)` with the default base pool. -/
def assignNodeIPs (t : Topology) : Except String (List (String × IPAlloc)) :=
  assignGo t t.links 0 0

/-- Network address of the block an allocation was carved from
(`hosts()[0]` is network + 1). -/
def blockStart (a : IPAlloc) : Nat := a.src - 1

/-- Number of addresses covered by the block. -/
def blockSize (a : IPAlloc) : Nat := 2 ^ (32 - a.plen)

/-- The two carved blocks do not share any address. -/
def blocksDisjoint (a b : IPAlloc) : Prop :=
  blockStart a + blockSize a ≤ blockStart b ∨ blockStart b + blockSize b ≤ blockStart a

instance (a b : IPAlloc) : Decidable (blocksDisjoint a b) := by
  unfold blocksDisjoint; infer_instance

/-- The carved block lies inside the base pool `10.0.0.0/16`. -/
def inPool (a : IPAlloc) : Prop :=
  baseAddr ≤ blockStart a ∧ blockStart a + blockSize a ≤ baseAddr + 65536

instance (a : IPAlloc) : Decidable (inPool a) := by
  unfold inPool; infer_instance

/-- Every allocation produced by the assignment loop records the switch
rule in its prefix length and its addresses sit at a /24 (resp. /30)
boundary whose index is at least the incoming cursor value. -/
lemma assignGo_mem {t : Topology} {links : List Link} {c24 c30 : Nat}
    {l : List (String × IPAlloc)}
    (h : assignGo t links c24 c30 = .ok l) :
    ∀ p ∈ l,
      ((isSwitchId t p.2.src_node || isSwitchId t p.2.dst_node) = true ∧ p.2.plen = 24 ∧
        ∃ i, c24 ≤ i ∧ i < 256 ∧ p.2.src = baseAddr + i * 256 + 1 ∧
          p.2.dst = baseAddr + i * 256 + 2)
      ∨ ((isSwitchId t p.2.src_node || isSwitchId t p.2.dst_node) = false ∧ p.2.plen = 30 ∧
        ∃ j, c30 ≤ j ∧ j < 16384 ∧ p.2.src = baseAddr + j * 4 + 1 ∧
          p.2.dst = baseAddr + j * 4 + 2) := by
  induction links generalizing c24 c30 l with
  | nil =>
    simp only [assignGo] at h
    cases h
    intro p hp
    simp at hp
  | cons lk rest ih =>
    simp only [assignGo] at h
    cases hsw : isSwitchId t lk.src || isSwitchId t lk.dst with
    | true =>
      rw [hsw] at h
      rw [if_pos rfl] at h
      by_cases hc : c24 < 256
      · rw [if_pos hc] at h
        cases hrec : assignGo t rest (c24 + 1) c30 with
        | ok tl =>
          rw [hrec] at h
          cases h
          intro p hp
          rcases List.mem_cons.mp hp with hhd | htl
          · subst hhd
            left
            exact ⟨hsw, rfl, c24, le_refl _, hc, rfl, rfl⟩
          · rcases ih hrec p htl with ⟨ha, hb, i, hi1, hi2, hi3⟩ | ⟨ha, hb, j, hj1, hj2, hj3⟩
            · exact Or.inl ⟨ha, hb, i, Nat.le_of_succ_le hi1, hi2, hi3⟩
            · exact Or.inr ⟨ha, hb, j, hj1, hj2, hj3⟩
        | error e => rw [hrec] at h; cases h
      · rw [if_neg hc] at h; cases h
    | false =>
      rw [hsw] at h
      rw [if_neg Bool.false_ne_true] at h
      by_cases hc : c30 < 16384
      · rw [if_pos hc] at h
        cases hrec : assignGo t rest c24 (c30 + 1) with
        | ok tl =>
          rw [hrec] at h
          cases h
          intro p hp
          rcases List.mem_cons.mp hp with hhd | htl
          · subst hhd
            right
            exact ⟨hsw, rfl, c30, le_refl _, hc, rfl, rfl⟩
          · rcases ih hrec p htl with ⟨ha, hb, i, hi1, hi2, hi3⟩ | ⟨ha, hb, j, hj1, hj2, hj3⟩
            · exact Or.inl ⟨ha, hb, i, hi1, hi2, hi3⟩
            · exact Or.inr ⟨ha, hb, j, Nat.le_of_succ_le hj1, hj2, hj3⟩
        | error e => rw [hrec] at h; cases h
      · rw [if_neg hc] at h; cases h

/-- Two allocations carved at distinct /24 indices (resp. distinct /30
indices) occupy disjoint blocks. -/
lemma assignGo_pairwise {t : Topology} {links : List Link} {c24 c30 : Nat}
    {l : List (String × IPAlloc)}
    (h : assignGo t links c24 c30 = .ok l) :
    List.Pairwise (fun p q : String × IPAlloc =>
      p.2.plen = q.2.plen → blocksDisjoint p.2 q.2) l := by
  induction links generalizing c24 c30 l with
  | nil =>
    simp only [assignGo] at h
    cases h
    exact List.Pairwise.nil
  | cons lk rest ih =>
    simp only [assignGo] at h
    cases hsw : isSwitchId t lk.src || isSwitchId t lk.dst with
    | true =>
      rw [hsw] at h
      rw [if_pos rfl] at h
      by_cases hc : c24 < 256
      · rw [if_pos hc] at h
        cases hrec : assignGo t rest (c24 + 1) c30 with
        | ok tl =>
          rw [hrec] at h
          cases h
          refine List.Pairwise.cons ?_ (ih hrec)
          intro q hq hplen
          rcases assignGo_mem hrec q hq with ⟨_, hb, i, hi1, _, hi3, _⟩ | ⟨_, hb, _, _, _, _⟩
          · left
            simp only [blockStart, blockSize, hb, hi3]
            have h8 : (2 : Nat) ^ (32 - 24) = 256 := by norm_num
            simp only [h8]
            omega
          · have h24 : (24 : Nat) = q.2.plen := hplen
            exact absurd (h24.trans hb) (by decide)
        | error e => rw [hrec] at h; cases h
      · rw [if_neg hc] at h; cases h
    | false =>
      rw [hsw] at h
      rw [if_neg Bool.false_ne_true] at h
      by_cases hc : c30 < 16384
      · rw [if_pos hc] at h
        cases hrec : assignGo t rest c24 (c30 + 1) with
        | ok tl =>
          rw [hrec] at h
          cases h
          refine List.Pairwise.cons ?_ (ih hrec)
          intro q hq hplen
          rcases assignGo_mem hrec q hq with ⟨_, hb, _, _, _, _⟩ | ⟨_, hb, j, hj1, _, hj3, _⟩
          · have h30 : (30 : Nat) = q.2.plen := hplen
            exact absurd (h30.trans hb) (by decide)
          · left
            simp only [blockStart, blockSize, hb, hj3]
            have h2 : (2 : Nat) ^ (32 - 30) = 4 := by norm_num
            simp only [h2]
            omega
        | error e => rw [hrec] at h; cases h
      · rw [if_neg hc] at h; cases h

/-- C1 (amended): every allocation returned by `assign_node_ips` is a
block drawn from the base pool whose prefix length follows the
switch-adjacency rule, and blocks of equal prefix length are pairwise
disjoint.  (As stated, the claim is false: the /24 and the /30 cursor
walk the same pool independently, so a /24 block can contain a /30
block — see the counterexample.) -/
theorem claim_C1_amended (t : Topology) (l : List (String × IPAlloc))
    (h : assignNodeIPs t = .ok l) :
    (∀ p ∈ l, inPool p.2 ∧
      p.2.plen = (if isSwitchId t p.2.src_node || isSwitchId t p.2.dst_node then 24 else 30)) ∧
    List.Pairwise (fun p q : String × IPAlloc =>
      p.2.plen = q.2.plen → blocksDisjoint p.2 q.2) l := by
  refine ⟨?_, assignGo_pairwise h⟩
  intro p hp
  rcases assignGo_mem h p hp with ⟨ha, hb, i, _, hi2, hi3, _⟩ | ⟨ha, hb, j, _, hj2, hj3, _⟩
  · constructor
    · simp only [inPool, blockStart, blockSize, hb, hi3]
      have h8 : (2 : Nat) ^ (32 - 24) = 256 := by norm_num
      simp only [h8]
      omega
    · rw [ha, if_pos rfl, hb]
  · constructor
    · simp only [inPool, blockStart, blockSize, hb, hj3]
      have h2 : (2 : Nat) ^ (32 - 30) = 4 := by norm_num
      simp only [h2]
      omega
    · rw [ha]
      simp only [Bool.false_eq_true, if_false, hb]

/-- Witness for `claim_C1_amended` at a concrete topology. -/
def topoC1 : Topology :=
  { name := "c1",
    nodes := [{ id := "s1", type := NodeType.switch },
              { id := "r1", type := NodeType.router, asn := some 65000 },
              { id := "r2", type := NodeType.router, asn := some 65000 }],
    links := [{ src := "s1", dst := "r1" }, { src := "r1", dst := "r2" }] }

/-- The allocations the code produces on `topoC1`: the switch link gets
the first /24 of the pool, the router-router link the first /30 — and
the /30 lies inside the /24. -/
def allocsC1 : List (String × IPAlloc) :=
  [("s1-r1", { src := baseAddr + 1, dst := baseAddr + 2, plen := 24,
               src_node := "s1", dst_node := "r1" }),
   ("r1-r2", { src := baseAddr + 1, dst := baseAddr + 2, plen := 30,
               src_node := "r1", dst_node := "r2" })]

theorem claim_C1_amended_witness :
    List.Pairwise (fun p q : String × IPAlloc =>
      p.2.plen = q.2.plen → blocksDisjoint p.2 q.2) allocsC1 :=
  (claim_C1_amended topoC1 allocsC1 (by rfl)).2

/-- C1 counterexample: on `topoC1` the returned assignments are NOT
pairwise non-overlapping — the switch link's /24 block and the
router link's /30 block both start at 10.0.0.0. -/
theorem claim_C1_counterexample :
    assignNodeIPs topoC1 = .ok allocsC1 ∧
    ¬ List.Pairwise (fun p q : String × IPAlloc => blocksDisjoint p.2 q.2) allocsC1 := by
  constructor
  · rfl
  · intro hpw
    rcases List.pairwise_cons.mp hpw with ⟨hrel, _⟩
    have := hrel _ (List.mem_cons_self _ _)
    rcases this with hle | hle <;>
      simp only [blocksDisjoint, blockStart, blockSize, allocsC1, baseAddr] at hle <;>
      omega

/-! ## Static routing (`utils/routing.py`, `compute_static_routes`)

`build_topology_graph` builds an undirected graph whose vertices are
node ids and whose edges come one from each link; `nx.shortest_path`
on it is an unweighted shortest-path search, modelled here as a
breadth-first search that returns an explicit vertex path. -/

/-- Edge test of the undirected topology graph. -/
def adjacentB (links : List Link) (u v : String) : Bool :=
  links.any (fun lk => (lk.src == u && lk.dst == v) || (lk.src == v && lk.dst == u))

/-- Neighbours of `v`: each link contributes its other endpoint. -/
def neighborsOf (links : List Link) (v : String) : List String :=
  links.foldr (fun lk acc =>
    if lk.src == v then lk.dst :: acc
    else if lk.dst == v then lk.src :: acc
    else acc) []

/-- Breadth-first search for a path to `target`.  The queue holds
partial paths in reverse (head = frontier vertex); a vertex is marked
visited when enqueued.  `fuel` bounds the number of dequeues; with the
generous fuel used below the search is exhaustive on the graphs it is
run on. -/
def bfs (links : List Link) (target : String) :
    Nat → List (List String) → List String → Option (List String)
  | 0, _, _ => none
  | _ + 1, [], _ => none
  | fuel + 1, p :: queue, visited =>
    match p with
    | [] => bfs links target fuel queue visited
    | v :: _ =>
      if v == target then some p.reverse
      else
        let fresh := (neighborsOf links v).filter (fun w => !visited.contains w)
        bfs links target fuel (queue ++ fresh.map (fun w => w :: p)) (visited ++ fresh)

/-- `nx.shortest_path(G, src, dst)` (raising `NetworkXNoPath` modelled
as `none`). -/
def shortestPath (t : Topology) (src dst : String) : Option (List String) :=
  bfs t.links dst ((t.nodes.length + 2) * (2 * t.links.length + 2) + 2) [[src]] [src]

/-- Next-hop extraction from a found path (`if len(path) > 1: ...` in
`compute_static_routes`): the next hop is `path[1]`, except that when
`path[1]` is a switch it is `path[2]` (or the route is dropped when the
path has no third vertex). -/
def routeViaPath (t : Topology) (dstId : String) (path : List String) : Option (String × String) :=
  if path.length > 1 then
    match path.get? 1 with
    | none => none
    | some nh =>
      match t.getNode nh with
      | some n =>
        if n.type == NodeType.switch then
          if path.length > 2 then (path.get? 2).map (fun nh2 => (dstId, nh2))
          else none
        else some (dstId, nh)
      | none => some (dstId, nh)
  else none

/-- The body of the inner destination loop of `compute_static_routes`:
the route entry (destination id, next-hop id) produced for one
destination node, or `none` when the iteration `continue`s. -/
def routeFor (t : Topology) (srcId : String) (dstNode : Node) : Option (String × String) :=
  if srcId == dstNode.id then none
  else
    match dstNode.type with
    | NodeType.switch => none
    | _ =>
      match shortestPath t srcId dstNode.id with
      | none => none
      | some path => routeViaPath t dstNode.id path

/-- Routes of one source node. -/
def nodeRoutes (t : Topology) (srcId : String) : List (String × String) :=
  t.nodes.filterMap (fun dn => routeFor t srcId dn)

/-- `compute_static_routes(topology)`.  The Python dict is modelled as
an association list in insertion order (a duplicated source id would
overwrite in the dict, keeping only the last entry). -/
def computeStaticRoutes (t : Topology) : List (String × List (String × String)) :=
  t.nodes.filterMap (fun sn =>
    match sn.type with
    | NodeType.switch => none
    | _ => some (sn.id, nodeRoutes t sn.id))

/-- The C2 claim as stated, as an executable check: no route map key,
destination or next hop is a switch. -/
def claimC2B (t : Topology) : Bool :=
  (computeStaticRoutes t).all (fun kr =>
    !isSwitchId t kr.1 &&
    kr.2.all (fun r => !isSwitchId t r.1 && !isSwitchId t r.2))

lemma adjacentB_symm {links : List Link} {u v : String}
    (h : adjacentB links u v = true) : adjacentB links v u = true := by
  simp only [adjacentB, List.any_eq_true] at h ⊢
  rcases h with ⟨lk, hmem, hcond⟩
  refine ⟨lk, hmem, ?_⟩
  rw [Bool.or_comm]
  exact hcond

lemma neighborsOf_adjacent {links : List Link} {v w : String}
    (h : w ∈ neighborsOf links v) : adjacentB links v w = true := by
  induction links with
  | nil => simp [neighborsOf] at h
  | cons lk rest ih =>
    simp only [neighborsOf, List.foldr_cons] at h
    by_cases h1 : lk.src == v
    · rw [if_pos h1] at h
      rcases List.mem_cons.mp h with hw | hw
      · subst hw
        simp only [adjacentB, List.any_cons]
        simp [h1]
      · have hrest := ih hw
        simp only [adjacentB] at hrest
        simp only [adjacentB, List.any_cons, hrest, Bool.or_true]
    · rw [if_neg h1] at h
      by_cases h2 : lk.dst == v
      · rw [if_pos h2] at h
        rcases List.mem_cons.mp h with hw | hw
        · subst hw
          simp only [adjacentB, List.any_cons]
          simp [h2]
        · have hrest := ih hw
          simp only [adjacentB] at hrest
          simp only [adjacentB, List.any_cons, hrest, Bool.or_true]
      · rw [if_neg h2] at h
        have hrest := ih h
        simp only [adjacentB] at hrest
        simp only [adjacentB, List.any_cons, hrest, Bool.or_true]

/-- Soundness of the search: any returned path is a chain of adjacent
vertices (consecutive path vertices are joined by a link). -/
lemma bfs_sound {links : List Link} {target : String} :
    ∀ {fuel : Nat} {queue : List (List String)} {visited : List String}
      {path : List String},
      bfs links target fuel queue visited = some path →
      (∀ p ∈ queue, p ≠ [] ∧ List.Chain' (fun a b => adjacentB links a b = true) p) →
      path ≠ [] ∧ List.Chain' (fun a b => adjacentB links a b = true) path := by
  intro fuel
  induction fuel with
  | zero => intro queue visited path h _; simp [bfs] at h
  | succ fuel ih =>
    intro queue visited path h hinv
    match queue with
    | [] => simp [bfs] at h
    | p :: qs =>
      match hp : p with
      | [] =>
        simp only [bfs] at h
        exact ih h (fun q hq => hinv q (List.mem_cons_of_mem _ hq))
      | v :: vs =>
        simp only [bfs] at h
        by_cases hv : v == target
        · rw [if_pos hv] at h
          cases h
          have hinv0 := hinv (v :: vs) (List.mem_cons_self _ _)
          constructor
          · simp
          · rw [List.chain'_reverse]
            refine hinv0.2.imp ?_
            intro a b hab
            exact adjacentB_symm hab
        · rw [if_neg hv] at h
          refine ih h ?_
          intro q hq
          rcases List.mem_append.mp hq with hq1 | hq2
          · exact hinv q (List.mem_cons_of_mem _ hq1)
          · rcases List.mem_map.mp hq2 with ⟨w, hw, hwq⟩
            subst hwq
            have hinv0 := hinv (v :: vs) (List.mem_cons_self _ _)
            have hwn : w ∈ neighborsOf links v := (List.mem_filter.mp hw).1
            constructor
            · simp
            · rw [List.chain'_cons]
              exact ⟨adjacentB_symm (neighborsOf_adjacent hwn), hinv0.2⟩

/-- Any path returned by `shortestPath` is a nonempty chain of
link-adjacent vertices. -/
lemma shortestPath_sound {t : Topology} {src dst : String} {path : List String}
    (h : shortestPath t src dst = some path) :
    path ≠ [] ∧ List.Chain' (fun a b => adjacentB t.links a b = true) path := by
  refine bfs_sound h ?_
  intro p hp
  rcases List.mem_singleton.mp hp with rfl
  exact ⟨by simp, List.chain'_singleton _⟩

lemma isSwitchId_of_getNode_none {t : Topology} {x : String}
    (hget : t.getNode x = none) : isSwitchId t x = false := by
  unfold isSwitchId
  rw [hget]

lemma isSwitchId_of_not_switch {t : Topology} {x : String} {n : Node}
    (hget : t.getNode x = some n) (hn : (n.type == NodeType.switch) = false) :
    isSwitchId t x = false := by
  cases htype : n.type with
  | switch => rw [htype] at hn; simp at hn
  | router => simp [isSwitchId, hget, htype]
  | host => simp [isSwitchId, hget, htype]

lemma isSwitchId_of_switch {t : Topology} {x : String} {n : Node}
    (hget : t.getNode x = some n) (hn : (n.type == NodeType.switch) = true) :
    isSwitchId t x = true := by
  cases htype : n.type with
  | switch => simp [isSwitchId, hget, htype]
  | router => rw [htype] at hn; simp at hn
  | host => rw [htype] at hn; simp at hn

/-- If two vertices are link-adjacent and no link joins two switches,
the neighbour of a switch is not a switch. -/
lemma adjacent_not_both_switch {t : Topology} {b c : String}
    (hnosw : ∀ lk ∈ t.links, ¬(isSwitchId t lk.src = true ∧ isSwitchId t lk.dst = true))
    (hadj : adjacentB t.links b c = true) (hb : isSwitchId t b = true) :
    isSwitchId t c = false := by
  simp only [adjacentB, List.any_eq_true] at hadj
  rcases hadj with ⟨lk, hmem, hcond⟩
  rcases Bool.or_eq_true_iff.mp hcond with hc1 | hc2
  · rcases Bool.and_eq_true_iff.mp hc1 with ⟨hs, hd⟩
    have hs' : lk.src = b := by simpa using hs
    have hd' : lk.dst = c := by simpa using hd
    cases hcsw : isSwitchId t c
    · rfl
    · exact absurd ⟨hs' ▸ hb, hd' ▸ hcsw⟩ (hnosw lk hmem)
  · rcases Bool.and_eq_true_iff.mp hc2 with ⟨hs, hd⟩
    have hs' : lk.src = c := by simpa using hs
    have hd' : lk.dst = b := by simpa using hd
    cases hcsw : isSwitchId t c
    · rfl
    · exact absurd ⟨hs' ▸ hcsw, hd' ▸ hb⟩ (hnosw lk hmem)

/-- Next-hop extraction never yields a switch next hop, provided no
link of the topology joins two switches. -/
lemma routeViaPath_sound {t : Topology} {dstId : String} {path : List String}
    {r : String × String}
    (hnosw : ∀ lk ∈ t.links, ¬(isSwitchId t lk.src = true ∧ isSwitchId t lk.dst = true))
    (hchain : List.Chain' (fun a b => adjacentB t.links a b = true) path)
    (h : routeViaPath t dstId path = some r) :
    r.1 = dstId ∧ isSwitchId t r.2 = false := by
  match path with
  | [] => simp [routeViaPath] at h
  | [a] => simp [routeViaPath] at h
  | a :: b :: rest =>
    have hlen : (a :: b :: rest).length > 1 := by simp
    rw [routeViaPath, if_pos hlen] at h
    simp only [List.get?] at h
    cases hget : t.getNode b with
    | none =>
      simp only [hget] at h
      have hr := Option.some.inj h
      subst hr
      exact ⟨rfl, isSwitchId_of_getNode_none hget⟩
    | some n =>
      simp only [hget] at h
      cases hsw : n.type == NodeType.switch with
      | false =>
        rw [hsw, if_neg Bool.false_ne_true] at h
        have hr := Option.some.inj h
        subst hr
        exact ⟨rfl, isSwitchId_of_not_switch hget hsw⟩
      | true =>
        rw [hsw, if_pos rfl] at h
        match rest with
        | [] => simp at h
        | c :: rest2 =>
          have hlen2 : (a :: b :: c :: rest2).length > 2 := by simp
          rw [if_pos hlen2] at h
          have hr : (dstId, c) = r := Option.some.inj h
          subst hr
          refine ⟨rfl, ?_⟩
          have hadjbc : adjacentB t.links b c = true :=
            (List.chain'_cons.mp (List.chain'_cons.mp hchain).2).1
          exact adjacent_not_both_switch hnosw hadjbc (isSwitchId_of_switch hget hsw)

/-- C2 (amended): provided no link of the topology joins two switches,
the route map computed by `compute_static_routes` has no entry keyed by
a switch node, every destination is a non-switch node, and no next hop
is a switch.  (As stated, the claim is false: when the second and third
vertices of a shortest path are both switches, the code skips only the
first of them — see the counterexample.) -/
theorem claim_C2_amended (t : Topology)
    (hnosw : ∀ lk ∈ t.links, ¬(isSwitchId t lk.src = true ∧ isSwitchId t lk.dst = true)) :
    ∀ kr ∈ computeStaticRoutes t,
      (∃ n ∈ t.nodes, n.id = kr.1 ∧ n.type ≠ NodeType.switch) ∧
      ∀ r ∈ kr.2,
        (∃ n ∈ t.nodes, n.id = r.1 ∧ n.type ≠ NodeType.switch) ∧
        isSwitchId t r.2 = false := by
  intro kr hkr
  rcases List.mem_filterMap.mp hkr with ⟨sn, hsn, hmap⟩
  have hsnty : sn.type ≠ NodeType.switch := by
    intro hty
    rw [hty] at hmap
    exact Option.noConfusion hmap
  have hkr1 : kr = (sn.id, nodeRoutes t sn.id) := by
    cases hty : sn.type with
    | switch => exact absurd hty hsnty
    | router => rw [hty] at hmap; exact (Option.some.inj hmap).symm
    | host => rw [hty] at hmap; exact (Option.some.inj hmap).symm
  subst hkr1
  refine ⟨⟨sn, hsn, rfl, hsnty⟩, ?_⟩
  intro r hr
  rcases List.mem_filterMap.mp hr with ⟨dn, hdn, hroute⟩
  unfold routeFor at hroute
  by_cases hself : (sn.id == dn.id) = true
  · rw [if_pos hself] at hroute
    exact Option.noConfusion hroute
  · rw [if_neg hself] at hroute
    have hdnty : dn.type ≠ NodeType.switch := by
      intro hty
      rw [hty] at hroute
      exact Option.noConfusion hroute
    have hcore : ∃ path, shortestPath t sn.id dn.id = some path ∧
        routeViaPath t dn.id path = some r := by
      cases hty : dn.type with
      | switch => exact absurd hty hdnty
      | router =>
        rw [hty] at hroute
        cases hsp : shortestPath t sn.id dn.id with
        | none => rw [hsp] at hroute; exact Option.noConfusion hroute
        | some path => rw [hsp] at hroute; exact ⟨path, rfl, hroute⟩
      | host =>
        rw [hty] at hroute
        cases hsp : shortestPath t sn.id dn.id with
        | none => rw [hsp] at hroute; exact Option.noConfusion hroute
        | some path => rw [hsp] at hroute; exact ⟨path, rfl, hroute⟩
    rcases hcore with ⟨path, hsp, hvia⟩
    have hchain := (shortestPath_sound hsp).2
    have hres := routeViaPath_sound hnosw hchain hvia
    exact ⟨⟨dn, hdn, hres.1.symm, hdnty⟩, hres.2⟩

/-- Topology with two switches in a row: `h1 - s1 - s2 - h2`. -/
def topoC2 : Topology :=
  { name := "c2",
    nodes := [{ id := "h1", type := NodeType.host },
              { id := "s1", type := NodeType.switch },
              { id := "s2", type := NodeType.switch },
              { id := "h2", type := NodeType.host }],
    links := [{ src := "h1", dst := "s1" }, { src := "s1", dst := "s2" },
              { src := "s2", dst := "h2" }] }

/-- C2 counterexample: on `h1 - s1 - s2 - h2` the route of `h1` towards
`h2` has the switch `s2` as next hop (the code skips `s1 = path[1]` but
takes `path[2]` unconditionally), so the claim as stated is false. -/
theorem claim_C2_counterexample :
    computeStaticRoutes topoC2 = [("h1", [("h2", "s2")]), ("h2", [("h1", "s1")])] ∧
    isSwitchId topoC2 "s2" = true ∧
    claimC2B topoC2 = false := by
  refine ⟨by decide, by decide, by decide⟩

/-- The reference three-node topology `h1 - r1 - h2` of the spec. -/
def topoRt : Topology :=
  { name := "rt",
    nodes := [{ id := "h1", type := NodeType.host },
              { id := "r1", type := NodeType.router, asn := some 65100,
                daemons := ["ospf"] },
              { id := "h2", type := NodeType.host }],
    links := [{ src := "h1", dst := "r1" }, { src := "r1", dst := "h2" }] }

/-- Witness for `claim_C2_amended`: on `h1 - r1 - h2` the next hop of
the `h1 → h2` route, `r1`, is not a switch. -/
theorem claim_C2_amended_witness : isSwitchId topoRt "r1" = false :=
  ((claim_C2_amended topoRt (by decide) ("h1", nodeRoutes topoRt "h1")
      (by decide)).2 ("h2", "r1") (by decide)).2

/-! ## Scenario model (`models/scenario.py`) -/

/-- `ScenarioType` enum. -/
inductive ScenarioType where
  | persistent
  | transient
deriving DecidableEq, Repr

/-- `NetemSpec` model.  Correlation percentages are `Optional[float]`
in the source, constrained to `0..100`; they are modelled as
`Option Nat` (the code only tests their truthiness and formats them
into the command string).  `jitter` is an optional map with optional
`mean`/`stddev` keys. -/
structure NetemSpec where
  delay : Option String := none
  delay_variation : Option String := none
  delay_correlation : Option Nat := none
  distribution : Option String := none
  loss : Option String := none
  loss_correlation : Option Nat := none
  duplicate : Option String := none
  corrupt : Option String := none
  reorder : Option String := none
  reorder_correlation : Option Nat := none
  rate : Option String := none
  jitter : Option (Option String × Option String) := none
deriving DecidableEq, Repr

/-- Python truthiness of an optional string field (`if self.delay:`):
`None` and the empty string are falsy. -/
def strTruthy : Option String → Option String
  | some s => if s.isEmpty then none else some s
  | none => none

/-- Python truthiness of an optional correlation
(`if self.delay_correlation:`): `None` and `0` are falsy; a truthy
value is appended as `f"{value}%"`. -/
def optPct : Option Nat → List String
  | some c => if c ≠ 0 then [toString c ++ "%"] else []
  | none => []

/-- `NetemSpec.to_tc_command`. -/
def toTcCommand (sp : NetemSpec) : List String :=
  (match strTruthy sp.delay with
   | none => []
   | some d =>
     ["delay", d]
     ++ (match strTruthy sp.delay_variation with
         | none => []
         | some dv => [dv] ++ optPct sp.delay_correlation)
     ++ (match strTruthy sp.distribution with
         | none => []
         | some dist => ["distribution", dist]))
  ++ (match sp.jitter with
      | none => []
      | some j => ["delay", j.1.getD "0ms", j.2.getD "0ms"])
  ++ (match strTruthy sp.loss with
      | none => []
      | some lo => ["loss", lo] ++ optPct sp.loss_correlation)
  ++ (match strTruthy sp.duplicate with
      | none => []
      | some d => ["duplicate", d])
  ++ (match strTruthy sp.corrupt with
      | none => []
      | some cr => ["corrupt", cr])
  ++ (match strTruthy sp.reorder with
      | none => []
      | some re => ["reorder", re] ++ optPct sp.reorder_correlation)
  ++ (match strTruthy sp.rate with
      | none => []
      | some ra => ["rate", ra])

/-- `Scenario` model (the fields read by the compiler, the impairment
engine and the scheduler; qdisc/control-plane/security impairments are
declared in the source but never applied — `_apply_scenario` has a TODO
for them and treats them as a successful no-op). -/
structure Scenario where
  id : String
  stype : ScenarioType := ScenarioType.transient
  applies_to : String
  netem : Option NetemSpec := none
  schedule : Option String := none
  duration : Option String := none
deriving DecidableEq, Repr

/-- `ScenarioSet` model. -/
structure ScenarioSet where
  persistent : List Scenario := []
  transient : List Scenario := []
deriving DecidableEq, Repr

/-- Result of `Scenario.parse_target`. -/
inductive Target where
  | link (src : String) (dst : Option String)
  | path (nodes : List String)
  | node (id : String)
deriving DecidableEq, Repr

/-- Character-list prefix test (`str.startswith`), structurally
recursive so that concrete target strings evaluate. -/
def startsWithChars : List Char → List Char → Bool
  | [], _ => true
  | _ :: _, [] => false
  | p :: ps, c :: cs => p == c && startsWithChars ps cs

/-- `str.split("->")` on a character list: greedy left-to-right split
at each two-character arrow; `cur` accumulates the current piece in
reverse. -/
def splitArrowAux (cur : List Char) : List Char → List (List Char)
  | [] => [cur.reverse]
  | '-' :: '>' :: rest => cur.reverse :: splitArrowAux [] rest
  | c :: rest => splitArrowAux (c :: cur) rest

/-- `Scenario.parse_target`: dispatch on the `applies_to` prefix
(`link:a->b` keeps the first two `->`-separated parts, with a missing
second part as `None`); an unknown prefix raises `ValueError`.  String
slicing and splitting are performed on the character list. -/
def parseTarget (appliesTo : String) : Except String Target :=
  if startsWithChars "link:".toList appliesTo.toList then
    let parts := splitArrowAux [] (appliesTo.toList.drop 5)
    .ok (Target.link (String.mk (parts.headD [])) ((parts.get? 1).map String.mk))
  else if startsWithChars "path:".toList appliesTo.toList then
    .ok (Target.path ((splitArrowAux [] (appliesTo.toList.drop 5)).map String.mk))
  else if startsWithChars "node:".toList appliesTo.toList then
    .ok (Target.node (String.mk (appliesTo.toList.drop 5)))
  else
    .error ("Invalid applies_to format: " ++ appliesTo)

/-! ## Topology compiler (`control/compiler.py`)

`load_from_dict` constructs the pydantic `Topology`; the model-level
validator `Topology.validate_links` runs during construction and raises
on the first link endpoint that is not a node id, so a topology with a
dangling link never reaches `TopologyCompiler.validate`. -/

/-- The node ids of a topology, in input order. -/
def nodeIds (t : Topology) : List String := t.nodes.map (fun n => n.id)

/-- pydantic validator `Topology.validate_links` (raises at the first
bad endpoint). -/
def validateLinks (nodes : List Node) : List Link → Except String Unit
  | [] => .ok ()
  | lk :: rest =>
    if (nodes.map (fun n => n.id)).contains lk.src then
      if (nodes.map (fun n => n.id)).contains lk.dst then
        validateLinks nodes rest
      else .error ("Link destination \x27" ++ lk.dst ++ "\x27 not found in nodes")
    else .error ("Link source \x27" ++ lk.src ++ "\x27 not found in nodes")

/-- `Topology(**topo_data)`: model construction, running the link
validator. -/
def mkTopology (name : String) (nodes : List Node) (links : List Link) :
    Except String Topology :=
  match validateLinks nodes links with
  | .ok _ => .ok { name := name, nodes := nodes, links := links }
  | .error e => .error e

/-- `TopologyCompiler` state: an optional loaded topology and an
optional scenario set. -/
structure Compiler where
  topology : Option Topology := none
  scenarios : Option ScenarioSet := none
deriving DecidableEq, Repr

/-- Duplicate-id check (`len(node_ids) != len(set(node_ids))`): a single
error for the whole condition. -/
def dupErrors (t : Topology) : List String :=
  if (nodeIds t).Nodup then [] else ["Duplicate node IDs found"]

/-- Per-link endpoint check of `validate` (one error per missing
endpoint). -/
def linkEndpointErrors (t : Topology) (lk : Link) : List String :=
  (if (nodeIds t).contains lk.src then []
   else ["Link source \x27" ++ lk.src ++ "\x27 not found in nodes"]) ++
  (if (nodeIds t).contains lk.dst then []
   else ["Link destination \x27" ++ lk.dst ++ "\x27 not found in nodes"])

def danglingErrors (t : Topology) : List String :=
  t.links.foldr (fun lk acc => linkEndpointErrors t lk ++ acc) []

/-- Python falsiness of `node.asn` (`not node.asn`): `None` and `0`. -/
def pyNotAsn : Option Nat → Bool
  | none => true
  | some a => a == 0

/-- Router-daemon consistency check of `validate` for one node. -/
def nodeBgpErrors (n : Node) : List String :=
  if n.type = NodeType.router then
    if ¬ n.daemons.isEmpty = true ∧ "bgp" ∈ n.daemons ∧ pyNotAsn n.asn = true then
      ["Router " ++ n.id ++ " has BGP daemon but no ASN"]
    else []
  else []

def bgpErrors (t : Topology) : List String :=
  t.nodes.foldr (fun n acc => nodeBgpErrors n ++ acc) []

/-- Link-target resolution of `validate` (direction-sensitive: a
`link:a->b` target must match a link with `src = a` and `dst = b`; a
missing `dst` never matches). -/
def linkTargetFound (t : Topology) (src : String) (dst : Option String) : Bool :=
  t.links.any (fun lk => lk.src == src &&
    (match dst with
     | some d => lk.dst == d
     | none => false))

/-- Scenario-target check of `validate` for one scenario (at most one
error per scenario; path targets are not validated at all). -/
def scenarioTargetErrors (t : Topology) (sc : Scenario) : List String :=
  match parseTarget sc.applies_to with
  | .error e => ["Scenario " ++ sc.id ++ " has invalid target: " ++ e]
  | .ok (Target.node nid) =>
    if (nodeIds t).contains nid then []
    else ["Scenario " ++ sc.id ++ " targets unknown node " ++ nid]
  | .ok (Target.link src dst) =>
    if linkTargetFound t src dst then []
    else ["Scenario " ++ sc.id ++ " targets unknown link " ++ src ++ "->" ++ dst.getD "None"]
  | .ok (Target.path _) => []

/-- The scenario list `self.scenarios.persistent + self.scenarios.transient`
of a compiler state (empty when no scenario set is loaded). -/
def compilerScenarios (c : Compiler) : List Scenario :=
  match c.scenarios with
  | none => []
  | some s => s.persistent ++ s.transient

def scenarioErrors (t : Topology) (ss : Option ScenarioSet) : List String :=
  match ss with
  | none => []
  | some s => (s.persistent ++ s.transient).foldr
      (fun sc acc => scenarioTargetErrors t sc ++ acc) []

/-- Ids of isolated nodes (`node_id_set - linked_nodes`), in node input
order (the Python set has no canonical order). -/
def isolatedIds (t : Topology) : List String :=
  (nodeIds t).filter (fun nid =>
    !(t.links.any (fun lk => lk.src == nid || lk.dst == nid)))

/-- Isolated-node warning (the Python message interpolates the set
display; only the prefix and the ids are modelled). -/
def isolatedWarnings (t : Topology) : List String :=
  if isolatedIds t = [] then []
  else ["Isolated nodes with no links: " ++ String.intercalate ", " (isolatedIds t)]

/-- `validate()` result record. -/
structure ValidationResult where
  valid : Bool
  errors : List String
  warnings : List String
deriving DecidableEq, Repr

/-- `TopologyCompiler.validate`. -/
def validate (c : Compiler) : ValidationResult :=
  match c.topology with
  | none => { valid := false, errors := ["No topology loaded"], warnings := [] }
  | some t =>
    let errors := dupErrors t ++ danglingErrors t ++ bgpErrors t
      ++ scenarioErrors t c.scenarios
    { valid := errors.isEmpty, errors := errors, warnings := isolatedWarnings t }

/-- `load_from_dict` followed by `validate` (scenario part omitted):
a construction-time `ValidationError` propagates and `validate` never
runs. -/
def loadThenValidate (name : String) (nodes : List Node) (links : List Link) :
    Except String ValidationResult :=
  match mkTopology name nodes links with
  | .ok t => .ok (validate { topology := some t, scenarios := none })
  | .error e => .error e

/-- The topology document of the C3 end-to-end scenario: `h1`, `r1`,
`h2` plus a link whose endpoint `h3` does not exist. -/
def nodesC3 : List Node :=
  [{ id := "h1", type := NodeType.host },
   { id := "r1", type := NodeType.router, asn := some 65100, daemons := ["ospf"] },
   { id := "h2", type := NodeType.host }]

def linksC3 : List Link :=
  [{ src := "h1", dst := "r1" }, { src := "r1", dst := "h2" },
   { src := "r1", dst := "h3" }]

/-- C3: on the topology document with a link to the nonexistent `h3`,
model construction itself raises (the pydantic `validate_links`
validator), so `load_from_dict` propagates the error and
`TopologyCompiler.validate` is never reached; the compiler does NOT
return `valid=false`.  The repository test `test_topology_validation`
expects `validate` to run and report `h3`, so this is a divergence
between the code and its own test. -/
theorem claim_C3_theorem :
    mkTopology "test_topo" nodesC3 linksC3 =
      .error "Link destination \x27h3\x27 not found in nodes" ∧
    loadThenValidate "test_topo" nodesC3 linksC3 =
      .error "Link destination \x27h3\x27 not found in nodes" :=
  ⟨rfl, rfl⟩

/-! Helper counts and characterisations for the `validate` analysis. -/

/-- Number of dangling link endpoints. -/
def danglingViolations (t : Topology) : Nat :=
  t.links.countP (fun lk => !(nodeIds t).contains lk.src)
  + t.links.countP (fun lk => !(nodeIds t).contains lk.dst)

/-- The router-with-BGP-daemon-but-no-ASN condition as a boolean. -/
def bgpPred (n : Node) : Bool :=
  decide (n.type = NodeType.router) && decide (¬ n.daemons.isEmpty = true)
    && decide ("bgp" ∈ n.daemons) && pyNotAsn n.asn

/-- Number of routers violating the daemon/ASN consistency rule. -/
def bgpViolations (t : Topology) : Nat := t.nodes.countP bgpPred

/-- Number of scenarios with an unresolvable target. -/
def scenarioViolations (t : Topology) (ss : Option ScenarioSet) : Nat :=
  match ss with
  | none => 0
  | some s => (s.persistent ++ s.transient).countP
      (fun sc => !(scenarioTargetErrors t sc).isEmpty)

/-- The exact scenario-target check `TopologyCompiler.validate`
performs: the target parses, a node target names an existing node, and
a link target matches a link in its declared direction only; path
targets are accepted without any check.  This is NOT the same as the
target resolving against the topology — see `specTargetResolvableB`
and the C4 counterexample. -/
def validatorTargetOk (t : Topology) (sc : Scenario) : Prop :=
  match parseTarget sc.applies_to with
  | .error _ => False
  | .ok (Target.node nid) => (nodeIds t).contains nid = true
  | .ok (Target.link src dst) => linkTargetFound t src dst = true
  | .ok (Target.path _) => True

/-- Modelled from the spec: "every scenario target must resolve against
the topology\x27s node/link set" (validation step 5) and
"TargetResolutionError (a scenario\x27s target string does not parse, or
resolves to a nonexistent node/link)".  A node target resolves when the
node exists; a link target when the topology has the link in either
direction — which is how `NetworkTopology.get_link`/`get_interface`
resolve it when the impairment is applied; a path target when every
node on the path exists. -/
def specTargetResolvableB (t : Topology) (sc : Scenario) : Bool :=
  match parseTarget sc.applies_to with
  | .error _ => false
  | .ok (Target.node nid) => (nodeIds t).contains nid
  | .ok (Target.link src dst) =>
    match dst with
    | some d => t.links.any (fun lk =>
        (lk.src == src && lk.dst == d) || (lk.src == d && lk.dst == src))
    | none => false
  | .ok (Target.path ns) => ns.all (fun n => (nodeIds t).contains n)

lemma foldr_append_ne_nil {α β : Type} (f : α → List β) (l : List α) :
    l.foldr (fun x acc => f x ++ acc) [] ≠ [] ↔ ∃ x ∈ l, f x ≠ [] := by
  induction l with
  | nil => simp
  | cons a l ih =>
    simp only [List.foldr_cons, ne_eq, List.append_eq_nil, not_and]
    constructor
    · intro h
      by_cases hfa : f a = []
      · have hrest : l.foldr (fun x acc => f x ++ acc) [] ≠ [] := h hfa
        rcases ih.mp hrest with ⟨x, hx, hfx⟩
        exact ⟨x, List.mem_cons_of_mem _ hx, hfx⟩
      · exact ⟨a, List.mem_cons_self _ _, hfa⟩
    · rintro ⟨x, hx, hfx⟩ h1
      rcases List.mem_cons.mp hx with rfl | hx2
      · exact absurd h1 hfx
      · exact ih.mpr ⟨x, hx2, hfx⟩

lemma dupErrors_ne_nil {t : Topology} :
    dupErrors t ≠ [] ↔ ¬ (nodeIds t).Nodup := by
  unfold dupErrors
  by_cases h : (nodeIds t).Nodup <;> simp [h]

lemma linkEndpointErrors_ne_nil {t : Topology} {lk : Link} :
    linkEndpointErrors t lk ≠ [] ↔
      ((nodeIds t).contains lk.src = false ∨ (nodeIds t).contains lk.dst = false) := by
  unfold linkEndpointErrors
  cases h1 : (nodeIds t).contains lk.src <;> cases h2 : (nodeIds t).contains lk.dst <;>
    simp [h1, h2]

lemma danglingErrors_ne_nil {t : Topology} :
    danglingErrors t ≠ [] ↔
      ∃ lk ∈ t.links,
        ((nodeIds t).contains lk.src = false ∨ (nodeIds t).contains lk.dst = false) := by
  unfold danglingErrors
  rw [foldr_append_ne_nil]
  constructor
  · rintro ⟨lk, hlk, hne⟩
    exact ⟨lk, hlk, linkEndpointErrors_ne_nil.mp hne⟩
  · rintro ⟨lk, hlk, hcond⟩
    exact ⟨lk, hlk, linkEndpointErrors_ne_nil.mpr hcond⟩

lemma nodeBgpErrors_ne_nil {n : Node} :
    nodeBgpErrors n ≠ [] ↔
      (n.type = NodeType.router ∧ n.daemons ≠ [] ∧ "bgp" ∈ n.daemons ∧
        pyNotAsn n.asn = true) := by
  unfold nodeBgpErrors
  by_cases h1 : n.type = NodeType.router
  · rw [if_pos h1]
    by_cases h2 : ¬ n.daemons.isEmpty = true ∧ "bgp" ∈ n.daemons ∧ pyNotAsn n.asn = true
    · rw [if_pos h2]
      simp only [ne_eq, List.cons_ne_nil, not_false_eq_true, true_iff]
      refine ⟨h1, ?_, h2.2.1, h2.2.2⟩
      intro hnil
      exact h2.1 (by simp [hnil])
    · rw [if_neg h2]
      simp only [ne_eq, not_true_eq_false, false_iff]
      rintro ⟨_, hd, hb, ha⟩
      exact h2 ⟨by simpa using hd, hb, ha⟩
  · rw [if_neg h1]
    simp only [ne_eq, not_true_eq_false, false_iff]
    rintro ⟨hr, _, _, _⟩
    exact h1 hr

lemma bgpErrors_ne_nil {t : Topology} :
    bgpErrors t ≠ [] ↔
      ∃ n ∈ t.nodes, n.type = NodeType.router ∧ n.daemons ≠ [] ∧ "bgp" ∈ n.daemons ∧
        pyNotAsn n.asn = true := by
  unfold bgpErrors
  rw [foldr_append_ne_nil]
  constructor
  · rintro ⟨n, hn, hne⟩
    exact ⟨n, hn, nodeBgpErrors_ne_nil.mp hne⟩
  · rintro ⟨n, hn, hcond⟩
    exact ⟨n, hn, nodeBgpErrors_ne_nil.mpr hcond⟩

lemma scenarioTargetErrors_ne_nil {t : Topology} {sc : Scenario} :
    scenarioTargetErrors t sc ≠ [] ↔ ¬ validatorTargetOk t sc := by
  unfold scenarioTargetErrors validatorTargetOk
  cases parseTarget sc.applies_to with
  | error e => simp
  | ok tgt =>
    cases tgt with
    | node nid =>
      cases h : (nodeIds t).contains nid <;> simp [h]
    | link src dst =>
      cases h : linkTargetFound t src dst <;> simp [h]
    | path ns => simp

lemma scenarioErrors_ne_nil {t : Topology} {c : Compiler} :
    scenarioErrors t c.scenarios ≠ [] ↔
      ∃ sc ∈ compilerScenarios c, ¬ validatorTargetOk t sc := by
  unfold scenarioErrors compilerScenarios
  cases c.scenarios with
  | none => simp
  | some s =>
    rw [foldr_append_ne_nil]
    constructor
    · rintro ⟨sc, hsc, hne⟩
      exact ⟨sc, hsc, scenarioTargetErrors_ne_nil.mp hne⟩
    · rintro ⟨sc, hsc, hcond⟩
      exact ⟨sc, hsc, scenarioTargetErrors_ne_nil.mpr hcond⟩

lemma linkEndpointErrors_length {t : Topology} {lk : Link} :
    (linkEndpointErrors t lk).length =
      (if (nodeIds t).contains lk.src then 0 else 1) +
      (if (nodeIds t).contains lk.dst then 0 else 1) := by
  unfold linkEndpointErrors
  cases h1 : (nodeIds t).contains lk.src <;> cases h2 : (nodeIds t).contains lk.dst <;>
    simp [h1, h2]

lemma danglingErrors_length {t : Topology} :
    (danglingErrors t).length = danglingViolations t := by
  unfold danglingErrors danglingViolations
  suffices h : ∀ l : List Link,
      (l.foldr (fun lk acc => linkEndpointErrors t lk ++ acc) []).length =
        l.countP (fun lk => !(nodeIds t).contains lk.src) +
        l.countP (fun lk => !(nodeIds t).contains lk.dst) from h t.links
  intro l
  induction l with
  | nil => simp
  | cons lk rest ih =>
    simp only [List.foldr_cons, List.length_append, List.countP_cons, ih,
      linkEndpointErrors_length]
    cases h1 : (nodeIds t).contains lk.src <;> cases h2 : (nodeIds t).contains lk.dst <;>
      simp [h1, h2] <;> omega

lemma nodeBgpErrors_length {n : Node} :
    (nodeBgpErrors n).length = if bgpPred n then 1 else 0 := by
  unfold nodeBgpErrors bgpPred
  by_cases h1 : n.type = NodeType.router <;>
    by_cases h2 : n.daemons.isEmpty = true <;>
    by_cases h3 : "bgp" ∈ n.daemons <;>
    cases h4 : pyNotAsn n.asn <;>
    simp [h1, h2, h3, h4]

lemma bgpErrors_length {t : Topology} :
    (bgpErrors t).length = bgpViolations t := by
  unfold bgpErrors bgpViolations
  suffices h : ∀ l : List Node,
      (l.foldr (fun n acc => nodeBgpErrors n ++ acc) []).length = l.countP bgpPred
    from h t.nodes
  intro l
  induction l with
  | nil => simp
  | cons n rest ih =>
    simp only [List.foldr_cons, List.length_append, List.countP_cons, ih,
      nodeBgpErrors_length]
    cases h : bgpPred n <;> simp [h] <;> omega

lemma scenarioTargetErrors_cases (t : Topology) (sc : Scenario) :
    scenarioTargetErrors t sc = [] ∨ ∃ e, scenarioTargetErrors t sc = [e] := by
  unfold scenarioTargetErrors
  cases parseTarget sc.applies_to with
  | error e => exact Or.inr ⟨_, rfl⟩
  | ok tgt =>
    cases tgt with
    | node nid =>
      cases h : (nodeIds t).contains nid
      · refine Or.inr ⟨"Scenario " ++ sc.id ++ " targets unknown node " ++ nid, ?_⟩
        show (if (nodeIds t).contains nid = true then ([] : List String)
          else ["Scenario " ++ sc.id ++ " targets unknown node " ++ nid]) =
          ["Scenario " ++ sc.id ++ " targets unknown node " ++ nid]
        rw [h, if_neg Bool.false_ne_true]
      · refine Or.inl ?_
        show (if (nodeIds t).contains nid = true then ([] : List String)
          else ["Scenario " ++ sc.id ++ " targets unknown node " ++ nid]) = []
        rw [h, if_pos rfl]
    | link src dst =>
      cases h : linkTargetFound t src dst
      · refine Or.inr ⟨"Scenario " ++ sc.id ++ " targets unknown link " ++ src ++ "->"
            ++ dst.getD "None", ?_⟩
        show (if linkTargetFound t src dst = true then ([] : List String)
          else ["Scenario " ++ sc.id ++ " targets unknown link " ++ src ++ "->"
            ++ dst.getD "None"]) =
          ["Scenario " ++ sc.id ++ " targets unknown link " ++ src ++ "->"
            ++ dst.getD "None"]
        rw [h, if_neg Bool.false_ne_true]
      · refine Or.inl ?_
        show (if linkTargetFound t src dst = true then ([] : List String)
          else ["Scenario " ++ sc.id ++ " targets unknown link " ++ src ++ "->"
            ++ dst.getD "None"]) = []
        rw [h, if_pos rfl]
    | path ns => exact Or.inl rfl

lemma scenarioTargetErrors_length {t : Topology} {sc : Scenario} :
    (scenarioTargetErrors t sc).length =
      if (scenarioTargetErrors t sc).isEmpty then 0 else 1 := by
  rcases scenarioTargetErrors_cases t sc with h | ⟨e, h⟩ <;> rw [h] <;> simp

lemma scenarioErrors_length {t : Topology} {ss : Option ScenarioSet} :
    (scenarioErrors t ss).length = scenarioViolations t ss := by
  unfold scenarioErrors scenarioViolations
  cases ss with
  | none => rfl
  | some s =>
    suffices h : ∀ l : List Scenario,
        (l.foldr (fun sc acc => scenarioTargetErrors t sc ++ acc) []).length =
          l.countP (fun sc => !(scenarioTargetErrors t sc).isEmpty)
      from h (s.persistent ++ s.transient)
    intro l
    induction l with
    | nil => simp
    | cons sc rest ih =>
      simp only [List.foldr_cons, List.length_append, List.countP_cons, ih,
        scenarioTargetErrors_length]
      cases h : (scenarioTargetErrors t sc).isEmpty <;> simp [h] <;> omega

set_option maxHeartbeats 1600000 in
/-- C4 (amended): for every loaded topology (a loaded node never
stores ASN 0 — the model validator rejects it), `validate` returns
`valid = false` iff a duplicate node id, a dangling link endpoint, a
router with a BGP daemon and falsy ASN, or a scenario target failing
the validator\x27s own target check (`validatorTargetOk`) exists; it
accumulates one error per violation; and when none of the error
conditions holds but an isolated node exists, the result is
`valid = true` with a nonempty warning list.  (As stated — with
"unresolvable scenario target" meaning resolution against the
topology\x27s node/link set — the iff is false on the code: path targets
are never validated and link targets match in their declared direction
only; see the counterexample.) -/
theorem claim_C4 (c : Compiler) (t : Topology)
    (ht : c.topology = some t)
    (hasn : ∀ n ∈ t.nodes, n.asn ≠ some 0) :
    ((validate c).valid = false ↔
      (¬ (nodeIds t).Nodup
       ∨ (∃ lk ∈ t.links,
            ((nodeIds t).contains lk.src = false ∨ (nodeIds t).contains lk.dst = false))
       ∨ (∃ n ∈ t.nodes, n.type = NodeType.router ∧ n.daemons ≠ [] ∧
            "bgp" ∈ n.daemons ∧ n.asn = none)
       ∨ (∃ sc ∈ compilerScenarios c, ¬ validatorTargetOk t sc)))
    ∧ (validate c).errors.length =
        (if (nodeIds t).Nodup then 0 else 1) + danglingViolations t + bgpViolations t
          + scenarioViolations t c.scenarios
    ∧ ((nodeIds t).Nodup →
       (∀ lk ∈ t.links,
          (nodeIds t).contains lk.src = true ∧ (nodeIds t).contains lk.dst = true) →
       (∀ n ∈ t.nodes, ¬(n.type = NodeType.router ∧ n.daemons ≠ [] ∧
          "bgp" ∈ n.daemons ∧ n.asn = none)) →
       (∀ sc ∈ compilerScenarios c, validatorTargetOk t sc) →
       isolatedIds t ≠ [] →
       ((validate c).valid = true ∧ (validate c).warnings ≠ [])) := by
  have hval : validate c =
      { valid := (dupErrors t ++ danglingErrors t ++ bgpErrors t
          ++ scenarioErrors t c.scenarios).isEmpty,
        errors := dupErrors t ++ danglingErrors t ++ bgpErrors t
          ++ scenarioErrors t c.scenarios,
        warnings := isolatedWarnings t } := by
    rw [validate, ht]
  have hbgp_iff : bgpErrors t ≠ [] ↔
      ∃ n ∈ t.nodes, n.type = NodeType.router ∧ n.daemons ≠ [] ∧
        "bgp" ∈ n.daemons ∧ n.asn = none := by
    rw [bgpErrors_ne_nil]
    constructor
    · rintro ⟨n, hn, hr, hd, hb, hpy⟩
      refine ⟨n, hn, hr, hd, hb, ?_⟩
      cases ha : n.asn with
      | none => rfl
      | some a =>
        rw [ha] at hpy
        have ha0 : a = 0 := by simpa [pyNotAsn] using hpy
        exact absurd (ha.trans (by rw [ha0])) (hasn n hn)
    · rintro ⟨n, hn, hr, hd, hb, hnone⟩
      exact ⟨n, hn, hr, hd, hb, by rw [hnone]; rfl⟩
  refine ⟨?_, ?_, ?_⟩
  · rw [hval]
    show ((dupErrors t ++ danglingErrors t ++ bgpErrors t
        ++ scenarioErrors t c.scenarios).isEmpty = false ↔ _)
    have hie : ∀ l : List String, (l.isEmpty = false ↔ l ≠ []) := by
      intro l; cases l <;> simp
    rw [hie]
    have h4 : dupErrors t ++ danglingErrors t ++ bgpErrors t
        ++ scenarioErrors t c.scenarios ≠ [] ↔
        (dupErrors t ≠ [] ∨ danglingErrors t ≠ [] ∨ bgpErrors t ≠ []
          ∨ scenarioErrors t c.scenarios ≠ []) := by
      simp only [ne_eq, List.append_eq_nil]
      tauto
    rw [h4]
    exact or_congr dupErrors_ne_nil
      (or_congr danglingErrors_ne_nil (or_congr hbgp_iff scenarioErrors_ne_nil))
  · rw [hval]
    show (dupErrors t ++ danglingErrors t ++ bgpErrors t
        ++ scenarioErrors t c.scenarios).length = _
    have hdl : (dupErrors t).length = (if (nodeIds t).Nodup then 0 else 1) := by
      unfold dupErrors
      by_cases h : (nodeIds t).Nodup <;> simp [h]
    simp only [List.length_append, hdl, danglingErrors_length, bgpErrors_length,
      scenarioErrors_length]
  · intro h1 h2 h3 h4 hiso
    have e1 : dupErrors t = [] := by unfold dupErrors; rw [if_pos h1]
    have e2 : danglingErrors t = [] := by
      by_contra hne
      rcases danglingErrors_ne_nil.mp hne with ⟨lk, hlk, hcond⟩
      rcases h2 lk hlk with ⟨hs, hd⟩
      rcases hcond with hc | hc
      · rw [hs] at hc; cases hc
      · rw [hd] at hc; cases hc
    have e3 : bgpErrors t = [] := by
      by_contra hne
      rcases hbgp_iff.mp hne with ⟨n, hn, hcond⟩
      exact h3 n hn hcond
    have e4 : scenarioErrors t c.scenarios = [] := by
      by_contra hne
      rcases scenarioErrors_ne_nil.mp hne with ⟨sc, hsc, hcond⟩
      exact hcond (h4 sc hsc)
    rw [hval]
    constructor
    · show (dupErrors t ++ danglingErrors t ++ bgpErrors t
        ++ scenarioErrors t c.scenarios).isEmpty = true
      rw [e1, e2, e3, e4]
      rfl
    · show isolatedWarnings t ≠ []
      unfold isolatedWarnings
      rw [if_neg hiso]
      exact List.cons_ne_nil _ _

/-- Compiler state holding the reference topology with no scenarios. -/
def compilerW : Compiler := { topology := some topoRt, scenarios := none }

/-- Witness for `claim_C4`: on the loaded `h1 - r1 - h2` topology the
error count is the (zero) sum of the per-condition violation counts. -/
theorem claim_C4_witness :
    (validate compilerW).errors.length =
      (if (nodeIds topoRt).Nodup then 0 else 1) + danglingViolations topoRt
        + bgpViolations topoRt + scenarioViolations topoRt compilerW.scenarios :=
  (claim_C4 compilerW topoRt rfl (by decide)).2.1

/-- The C4 claim as stated, at one compiler state: `valid = false` iff
a duplicate id, dangling endpoint, BGP-without-ASN router, or scenario
target that does not resolve against the topology\x27s node/link set
(the spec\x27s notion, `specTargetResolvableB`) exists. -/
def claimC4Stated (c : Compiler) (t : Topology) : Prop :=
  (validate c).valid = false ↔
    (¬ (nodeIds t).Nodup
     ∨ (∃ lk ∈ t.links,
          ((nodeIds t).contains lk.src = false ∨ (nodeIds t).contains lk.dst = false))
     ∨ (∃ n ∈ t.nodes, n.type = NodeType.router ∧ n.daemons ≠ [] ∧
          "bgp" ∈ n.daemons ∧ n.asn = none)
     ∨ (∃ sc ∈ compilerScenarios c, specTargetResolvableB t sc = false))

instance (c : Compiler) (t : Topology) : Decidable (claimC4Stated c t) := by
  unfold claimC4Stated
  infer_instance

/-- A transient scenario whose path target names only nonexistent
nodes. -/
def scPathBad : Scenario :=
  { id := "pbad", stype := ScenarioType.transient, applies_to := "path:x->y",
    schedule := some "* * * * *" }

/-- A transient scenario naming the existing `h1 - r1` link in the
reverse of its declared direction (it resolves at apply time via
`get_link`/`get_interface`, which try both directions). -/
def scLinkRev : Scenario :=
  { id := "lrev", stype := ScenarioType.transient, applies_to := "link:r1->h1",
    schedule := some "* * * * *" }

def cC4a : Compiler :=
  { topology := some topoRt,
    scenarios := some { persistent := [], transient := [scPathBad] } }

def cC4b : Compiler :=
  { topology := some topoRt,
    scenarios := some { persistent := [], transient := [scLinkRev] } }

/-- C4 counterexample: on `cC4a` a path target over nonexistent nodes
is unresolvable yet `validate` returns `valid = true` (path targets are
never checked), and on `cC4b` a reversed link target resolves (the link
exists) yet `validate` returns `valid = false` — the claimed iff fails
in both directions. -/
theorem claim_C4_counterexample :
    ¬ claimC4Stated cC4a topoRt ∧ ¬ claimC4Stated cC4b topoRt := by
  exact ⟨by decide, by decide⟩

/-! ## Impairment engine (`impairments/netem.py`)

The Mininet driver is an external collaborator: `network.get_interface`
resolves the interface of a node facing a peer, and
`network.get_node(...).intfList()` lists a node\x27s interfaces; both are
modelled as oracle functions.  Mininet\x27s `node.cmd(...)` runs a shell
command and returns its output string — a failing `tc` command reports
the error in that output rather than raising — so the defensive
`except` arms of `NetemImpairment.apply`/`.clear` are unreachable under
this driver and the commands are modelled as always executed. -/

/-- Driver oracle: interface resolution and per-node interface lists
(`none` = unknown node). -/
structure Net where
  getInterface : String → String → Option String
  nodeIntfs : String → Option (List String)

/-- Per-interface state of a `NetemImpairment`: its `active_rules` list
(spec plus the issued command string). -/
structure NetemState where
  activeRules : List (NetemSpec × String)
deriving DecidableEq, Repr

def emptyNetemState : NetemState := { activeRules := [] }

/-- `NetemImpairment.apply`: clear the interface, then — unless the
spec yields no netem arguments — issue `tc qdisc add` and record the
rule.  Returns `True` in both branches. -/
def netemApply (interface : String) (sp : NetemSpec) (st : NetemState) :
    Bool × NetemState :=
  let cleared := emptyNetemState
  let args := toTcCommand sp
  if args.isEmpty then (true, cleared)
  else (true, { activeRules := cleared.activeRules ++
    [(sp, "tc qdisc add dev " ++ interface ++ " root netem "
      ++ String.intercalate " " args)] })

/-- `NetemImpairment.clear`: issue `tc qdisc del` and reset the rule
list; always returns `True`. -/
def netemClear (st : NetemState) : Bool × NetemState := (true, emptyNetemState)

/-- The `ImpairmentEngine.impairments` dict, keyed
`f"{node}:{interface}"`, as an association list in insertion order
(keys are inserted at most once, so they stay unique). -/
abbrev EngineState := List (String × NetemState)

def containsKey {α : Type} (k : String) (st : List (String × α)) : Bool :=
  st.any (fun p => p.1 == k)

def getKey (k : String) (st : EngineState) : NetemState :=
  match st.find? (fun p => p.1 == k) with
  | some p => p.2
  | none => emptyNetemState

def setKey (k : String) (v : NetemState) (st : EngineState) : EngineState :=
  st.map (fun p => if p.1 == k then (p.1, v) else p)

/-- `if key not in self.impairments: self.impairments[key] = NetemImpairment(...)`. -/
def ensureKey (k : String) (st : EngineState) : EngineState :=
  if containsKey k st then st else st ++ [(k, emptyNetemState)]

/-- `ImpairmentEngine.apply_to_link`. -/
def applyToLink (net : Net) (src dst : String) (sp : NetemSpec)
    (st : EngineState) : Bool × EngineState :=
  match net.getInterface src dst with
  | none => (false, st)
  | some intf =>
    let key := src ++ ":" ++ intf
    let st1 := ensureKey key st
    let r := netemApply intf sp (getKey key st1)
    (r.1, setKey key r.2 st1)

/-- Consecutive pairs `nodes[i], nodes[i+1]` of the path loop. -/
def pairsOf : List String → List (String × String)
  | a :: b :: rest => (a, b) :: pairsOf (b :: rest)
  | _ => []

/-- The body of the `apply_to_path` loop over consecutive pairs: the
loop keeps going after a failure, only recording overall failure in
`success`. -/
def applyPairStep (net : Net) (sp : NetemSpec) (acc : Bool × EngineState)
    (pr : String × String) : Bool × EngineState :=
  let r := applyToLink net pr.1 pr.2 sp acc.2
  (acc.1 && r.1, r.2)

def applyPairs (net : Net) (sp : NetemSpec) (prs : List (String × String))
    (acc : Bool × EngineState) : Bool × EngineState :=
  prs.foldl (applyPairStep net sp) acc

/-- `ImpairmentEngine.apply_to_path`. -/
def applyToPath (net : Net) (nodes : List String) (sp : NetemSpec)
    (st : EngineState) : Bool × EngineState :=
  applyPairs net sp (pairsOf nodes) (true, st)

/-- One iteration of the `apply_to_node` loop (skip the loopback,
otherwise get-or-create the per-interface manager and apply). -/
def applyIntfStep (net : Net) (nodeId : String) (sp : NetemSpec)
    (acc : Bool × EngineState) (intf : String) : Bool × EngineState :=
  if intf ≠ "lo" then
    let key := nodeId ++ ":" ++ intf
    let st1 := ensureKey key acc.2
    let r := netemApply intf sp (getKey key st1)
    (acc.1 && r.1, setKey key r.2 st1)
  else acc

/-- The body of the `apply_to_node` loop over the node interfaces. -/
def applyIntfs (net : Net) (nodeId : String) (sp : NetemSpec)
    (intfs : List String) (acc : Bool × EngineState) : Bool × EngineState :=
  intfs.foldl (applyIntfStep net nodeId sp) acc

/-- `ImpairmentEngine.apply_to_node`: every non-loopback interface of
the node. -/
def applyToNode (net : Net) (nodeId : String) (sp : NetemSpec)
    (st : EngineState) : Bool × EngineState :=
  match net.nodeIntfs nodeId with
  | none => (false, st)
  | some intfs => applyIntfs net nodeId sp intfs (true, st)

/-- `ImpairmentEngine.clear_link`: clearing a key that was never
touched is a successful no-op. -/
def clearLink (net : Net) (src dst : String) (st : EngineState) :
    Bool × EngineState :=
  match net.getInterface src dst with
  | none => (false, st)
  | some intf =>
    let key := src ++ ":" ++ intf
    if containsKey key st then
      let r := netemClear (getKey key st)
      (r.1, setKey key r.2 st)
    else (true, st)

/-- `ImpairmentEngine.clear_path`. -/
def clearPath (net : Net) (nodes : List String) (st : EngineState) :
    Bool × EngineState :=
  (pairsOf nodes).foldl (fun acc pr =>
    let r := clearLink net pr.1 pr.2 acc.2
    (acc.1 && r.1, r.2)) (true, st)

/-- `ImpairmentEngine.clear_node`. -/
def clearNode (net : Net) (nodeId : String) (st : EngineState) :
    Bool × EngineState :=
  match net.nodeIntfs nodeId with
  | none => (false, st)
  | some intfs =>
    intfs.foldl (fun acc intf =>
      if intf ≠ "lo" then
        let key := nodeId ++ ":" ++ intf
        if containsKey key acc.2 then
          let r := netemClear (getKey key acc.2)
          (acc.1 && r.1, setKey key r.2 acc.2)
        else acc
      else acc) (true, st)

lemma netemApply_fst (i : String) (sp : NetemSpec) (s : NetemState) :
    (netemApply i sp s).1 = true := by
  unfold netemApply
  by_cases h : (toTcCommand sp).isEmpty <;> simp [h]

/-- `applyToLink` on a resolved interface, written without the
intermediate state read (the netem apply ignores the prior
per-interface state). -/
lemma applyToLink_some {net : Net} {src dst intf : String} (sp : NetemSpec)
    (st : EngineState) (hres : net.getInterface src dst = some intf) :
    applyToLink net src dst sp st =
      ((netemApply intf sp emptyNetemState).1,
        setKey (src ++ ":" ++ intf) (netemApply intf sp emptyNetemState).2
          (ensureKey (src ++ ":" ++ intf) st)) := by
  unfold applyToLink
  rw [hres]
  rfl

lemma applyToLink_none {net : Net} {src dst : String} (sp : NetemSpec)
    (st : EngineState) (hres : net.getInterface src dst = none) :
    applyToLink net src dst sp st = (false, st) := by
  unfold applyToLink
  rw [hres]

lemma clearLink_some {net : Net} {src dst intf : String} {st : EngineState}
    (hres : net.getInterface src dst = some intf)
    (hmem : containsKey (src ++ ":" ++ intf) st = true) :
    clearLink net src dst st =
      (true, setKey (src ++ ":" ++ intf) emptyNetemState st) := by
  unfold clearLink
  rw [hres]
  show (if containsKey (src ++ ":" ++ intf) st = true then _ else _) = _
  rw [hmem, if_pos rfl]
  rfl

lemma clearLink_clean {net : Net} {src dst intf : String} {st : EngineState}
    (hres : net.getInterface src dst = some intf)
    (hmem : containsKey (src ++ ":" ++ intf) st = false) :
    clearLink net src dst st = (true, st) := by
  unfold clearLink
  rw [hres]
  show (if containsKey (src ++ ":" ++ intf) st = true then _ else _) = _
  rw [hmem, if_neg Bool.false_ne_true]

lemma applyToLink_fst (net : Net) (a b : String) (sp : NetemSpec)
    (s : EngineState) :
    (applyToLink net a b sp s).1 = (net.getInterface a b).isSome := by
  cases hres : net.getInterface a b with
  | none => rw [applyToLink_none sp s hres]; rfl
  | some intf => rw [applyToLink_some sp s hres, netemApply_fst]; rfl

lemma netemApply_state_const (i : String) (sp : NetemSpec) (s1 s2 : NetemState) :
    netemApply i sp s1 = netemApply i sp s2 := rfl

lemma containsKey_setKey (k k2 : String) (v : NetemState) (st : EngineState) :
    containsKey k (setKey k2 v st) = containsKey k st := by
  induction st with
  | nil => rfl
  | cons p rest ih =>
    simp only [setKey, List.map_cons, containsKey, List.any_cons] at ih ⊢
    by_cases h : p.1 == k2
    · rw [if_pos h]
      simp only [ih]
    · rw [if_neg h]
      simp only [ih]

lemma containsKey_ensureKey (k : String) (st : EngineState) :
    containsKey k (ensureKey k st) = true := by
  unfold ensureKey
  cases h : containsKey k st
  · rw [if_neg Bool.false_ne_true]
    unfold containsKey at h ⊢
    simp [List.any_append]
  · rw [if_pos rfl]
    exact h

lemma ensureKey_of_contains {k : String} {st : EngineState}
    (h : containsKey k st = true) : ensureKey k st = st := by
  unfold ensureKey
  rw [h, if_pos rfl]

lemma setKey_setKey (k : String) (v w : NetemState) (st : EngineState) :
    setKey k v (setKey k w st) = setKey k v st := by
  unfold setKey
  rw [List.map_map]
  apply List.map_congr_left
  intro p _
  by_cases h : p.1 == k
  · simp [Function.comp, h]
  · simp [Function.comp, h]

lemma clearLink_none {net : Net} {src dst : String} (st : EngineState)
    (hres : net.getInterface src dst = none) :
    clearLink net src dst st = (false, st) := by
  unfold clearLink
  rw [hres]

/-- C6: applying a netem spec to a link, clearing the link, and
applying the same spec again leaves the engine state (success flag
included) identical to a single apply; and applying any second spec
after a first apply is the same as applying the second spec alone —
apply is clear-then-set and never stacks prior per-interface state. -/
theorem claim_C6 (net : Net) (src dst : String) (sp sp2 : NetemSpec)
    (st : EngineState) :
    applyToLink net src dst sp
        (clearLink net src dst (applyToLink net src dst sp st).2).2
      = applyToLink net src dst sp st
    ∧ applyToLink net src dst sp2 (applyToLink net src dst sp st).2
      = applyToLink net src dst sp2 st := by
  cases hres : net.getInterface src dst with
  | none =>
    have ha : ∀ (sp3 : NetemSpec) (s : EngineState),
        applyToLink net src dst sp3 s = (false, s) :=
      fun sp3 s => applyToLink_none sp3 s hres
    have hc : ∀ s : EngineState, clearLink net src dst s = (false, s) :=
      fun s => clearLink_none s hres
    constructor
    · rw [ha sp st]
      dsimp only
      rw [hc st]
      dsimp only
      rw [ha sp st]
    · rw [ha sp st]
  | some intf =>
    have ha : ∀ (sp3 : NetemSpec) (s : EngineState),
        applyToLink net src dst sp3 s =
          ((netemApply intf sp3 emptyNetemState).1,
            setKey (src ++ ":" ++ intf) (netemApply intf sp3 emptyNetemState).2
              (ensureKey (src ++ ":" ++ intf) s)) :=
      fun sp3 s => applyToLink_some sp3 s hres
    have hck1 : containsKey (src ++ ":" ++ intf)
        (setKey (src ++ ":" ++ intf) (netemApply intf sp emptyNetemState).2
          (ensureKey (src ++ ":" ++ intf) st)) = true := by
      rw [containsKey_setKey, containsKey_ensureKey]
    constructor
    · rw [ha sp st]
      dsimp only
      rw [clearLink_some hres hck1]
      dsimp only
      rw [ha sp]
      rw [ensureKey_of_contains (by rw [containsKey_setKey]; exact hck1),
        setKey_setKey, setKey_setKey]
    · rw [ha sp st]
      dsimp only
      rw [ha sp2]
      rw [ensureKey_of_contains hck1, setKey_setKey]
      rw [ha sp2]

lemma applyPairs_fst (net : Net) (sp : NetemSpec) (prs : List (String × String)) :
    ∀ (b : Bool) (st : EngineState),
      (applyPairs net sp prs (b, st)).1
        = (b && prs.all (fun pr => (net.getInterface pr.1 pr.2).isSome)) := by
  induction prs with
  | nil => intro b st; simp [applyPairs]
  | cons pr rest ih =>
    intro b st
    show (applyPairs net sp rest
      ((b && (applyToLink net pr.1 pr.2 sp st).1),
        (applyToLink net pr.1 pr.2 sp st).2)).1 = _
    rw [ih, List.all_cons, applyToLink_fst, Bool.and_assoc]

lemma applyPairs_snd (net : Net) (sp : NetemSpec) (prs : List (String × String)) :
    ∀ (b : Bool) (st : EngineState),
      (applyPairs net sp prs (b, st)).2
        = prs.foldl (fun s pr => (applyToLink net pr.1 pr.2 sp s).2) st := by
  induction prs with
  | nil => intro b st; rfl
  | cons pr rest ih =>
    intro b st
    show (applyPairs net sp rest
      ((b && (applyToLink net pr.1 pr.2 sp st).1),
        (applyToLink net pr.1 pr.2 sp st).2)).2 = _
    rw [ih, List.foldl_cons]

lemma containsKey_ensureKey_mono {k k2 : String} {st : EngineState}
    (h : containsKey k st = true) :
    containsKey k (ensureKey k2 st) = true := by
  unfold ensureKey
  by_cases h2 : containsKey k2 st = true
  · rw [if_pos h2]; exact h
  · rw [if_neg h2]
    unfold containsKey at h ⊢
    rw [List.any_append, h]
    rfl

lemma applyToLink_preserves {net : Net} {a b : String} {sp : NetemSpec}
    {st : EngineState} {k : String} (h : containsKey k st = true) :
    containsKey k (applyToLink net a b sp st).2 = true := by
  cases hres : net.getInterface a b with
  | none => rw [applyToLink_none sp st hres]; exact h
  | some i =>
    rw [applyToLink_some sp st hres]
    dsimp only
    rw [containsKey_setKey]
    exact containsKey_ensureKey_mono h

lemma applyToLink_contains_self {net : Net} {a b i : String} {sp : NetemSpec}
    {st : EngineState} (hres : net.getInterface a b = some i) :
    containsKey (a ++ ":" ++ i) (applyToLink net a b sp st).2 = true := by
  rw [applyToLink_some sp st hres]
  dsimp only
  rw [containsKey_setKey, containsKey_ensureKey]

lemma applyPairs_preserves (net : Net) (sp : NetemSpec)
    (prs : List (String × String)) :
    ∀ (b : Bool) (st : EngineState) (k : String), containsKey k st = true →
      containsKey k (applyPairs net sp prs (b, st)).2 = true := by
  induction prs with
  | nil => intro b st k h; exact h
  | cons pr rest ih =>
    intro b st k h
    show containsKey k (applyPairs net sp rest
      ((b && (applyToLink net pr.1 pr.2 sp st).1),
        (applyToLink net pr.1 pr.2 sp st).2)).2 = true
    exact ih _ _ k (applyToLink_preserves h)

lemma applyPairs_touches (net : Net) (sp : NetemSpec)
    (prs : List (String × String)) :
    ∀ (b : Bool) (st : EngineState) (pr : String × String), pr ∈ prs →
      ∀ i, net.getInterface pr.1 pr.2 = some i →
        containsKey (pr.1 ++ ":" ++ i) (applyPairs net sp prs (b, st)).2 = true := by
  induction prs with
  | nil => intro b st pr h; simp at h
  | cons pr0 rest ih =>
    intro b st pr hmem i hres
    show containsKey _ (applyPairs net sp rest
      ((b && (applyToLink net pr0.1 pr0.2 sp st).1),
        (applyToLink net pr0.1 pr0.2 sp st).2)).2 = true
    rcases List.mem_cons.mp hmem with rfl | hmem2
    · exact applyPairs_preserves net sp rest _ _ _ (applyToLink_contains_self hres)
    · exact ih _ _ pr hmem2 i hres

lemma applyIntfStep_fst (net : Net) (nodeId : String) (sp : NetemSpec)
    (acc : Bool × EngineState) (intf : String) :
    (applyIntfStep net nodeId sp acc intf).1 = acc.1 := by
  unfold applyIntfStep
  by_cases h : intf ≠ "lo"
  · rw [if_pos h]
    dsimp only
    rw [netemApply_fst, Bool.and_true]
  · rw [if_neg h]

lemma applyIntfStep_preserves {net : Net} {nodeId : String} {sp : NetemSpec}
    {acc : Bool × EngineState} {intf k : String}
    (h : containsKey k acc.2 = true) :
    containsKey k (applyIntfStep net nodeId sp acc intf).2 = true := by
  unfold applyIntfStep
  by_cases hlo : intf ≠ "lo"
  · rw [if_pos hlo]
    dsimp only
    rw [containsKey_setKey]
    exact containsKey_ensureKey_mono h
  · rw [if_neg hlo]
    exact h

lemma applyIntfStep_touches (net : Net) (nodeId : String) (sp : NetemSpec)
    (acc : Bool × EngineState) (intf : String) (hlo : intf ≠ "lo") :
    containsKey (nodeId ++ ":" ++ intf)
      (applyIntfStep net nodeId sp acc intf).2 = true := by
  unfold applyIntfStep
  rw [if_pos hlo]
  dsimp only
  rw [containsKey_setKey, containsKey_ensureKey]

lemma applyIntfs_fst (net : Net) (nodeId : String) (sp : NetemSpec)
    (intfs : List String) :
    ∀ acc : Bool × EngineState, (applyIntfs net nodeId sp intfs acc).1 = acc.1 := by
  induction intfs with
  | nil => intro acc; rfl
  | cons intf rest ih =>
    intro acc
    show (applyIntfs net nodeId sp rest (applyIntfStep net nodeId sp acc intf)).1 = acc.1
    rw [ih, applyIntfStep_fst]

lemma applyIntfs_preserves (net : Net) (nodeId : String) (sp : NetemSpec)
    (intfs : List String) :
    ∀ (acc : Bool × EngineState) (k : String), containsKey k acc.2 = true →
      containsKey k (applyIntfs net nodeId sp intfs acc).2 = true := by
  induction intfs with
  | nil => intro acc k h; exact h
  | cons intf rest ih =>
    intro acc k h
    show containsKey k (applyIntfs net nodeId sp rest
      (applyIntfStep net nodeId sp acc intf)).2 = true
    exact ih _ k (applyIntfStep_preserves h)

lemma applyIntfs_touches (net : Net) (nodeId : String) (sp : NetemSpec)
    (intfs : List String) :
    ∀ (acc : Bool × EngineState) (intf : String), intf ∈ intfs → intf ≠ "lo" →
      containsKey (nodeId ++ ":" ++ intf)
        (applyIntfs net nodeId sp intfs acc).2 = true := by
  induction intfs with
  | nil => intro acc intf h; simp at h
  | cons intf0 rest ih =>
    intro acc intf hmem hlo
    show containsKey _ (applyIntfs net nodeId sp rest
      (applyIntfStep net nodeId sp acc intf0)).2 = true
    rcases List.mem_cons.mp hmem with rfl | hmem2
    · exact applyIntfs_preserves net nodeId sp rest _ _
        (applyIntfStep_touches net nodeId sp acc intf hlo)
    · exact ih _ intf hmem2 hlo

lemma all_eq_false_iff {α : Type} (p : α → Bool) (l : List α) :
    (l.all p = false) ↔ ∃ x ∈ l, p x = false := by
  constructor
  · intro h
    by_contra hc
    push_neg at hc
    have hall : l.all p = true := by
      rw [List.all_eq_true]
      intro x hx
      cases hp : p x
      · exact absurd hp (hc x hx)
      · rfl
    cases hall.symm.trans h
  · rintro ⟨x, hx, hpx⟩
    cases h : l.all p
    · rfl
    · rw [List.all_eq_true] at h
      rw [h x hx] at hpx
      cases hpx

/-- C7: impairment application to path and node targets is best-effort:
per-link success is exactly interface resolution; a path application
fails overall iff some consecutive pair\x27s link application fails; the
terminal state is the fold over every pair (a failure does not stop the
loop); every resolvable pair\x27s interface is touched; a node
application fails iff the node does not resolve, and every non-loopback
interface of a resolved node is touched.  (The Lean model is total, so
"never throws" holds by construction.) -/
theorem claim_C7 (net : Net) (sp : NetemSpec) (nodes : List String)
    (nodeId : String) (st st2 : EngineState) :
    (∀ (a b : String) (s : EngineState),
      (applyToLink net a b sp s).1 = (net.getInterface a b).isSome)
    ∧ ((applyToPath net nodes sp st).1 = false ↔
        ∃ pr ∈ pairsOf nodes, (applyToLink net pr.1 pr.2 sp st).1 = false)
    ∧ (applyToPath net nodes sp st).2 =
        (pairsOf nodes).foldl (fun s pr => (applyToLink net pr.1 pr.2 sp s).2) st
    ∧ (∀ pr ∈ pairsOf nodes, ∀ i, net.getInterface pr.1 pr.2 = some i →
        containsKey (pr.1 ++ ":" ++ i) (applyToPath net nodes sp st).2 = true)
    ∧ ((applyToNode net nodeId sp st2).1 = false ↔ net.nodeIntfs nodeId = none)
    ∧ (∀ intfs, net.nodeIntfs nodeId = some intfs →
        ∀ intf ∈ intfs, intf ≠ "lo" →
          containsKey (nodeId ++ ":" ++ intf)
            (applyToNode net nodeId sp st2).2 = true) := by
  refine ⟨fun a b s => applyToLink_fst net a b sp s, ?_, ?_, ?_, ?_, ?_⟩
  · unfold applyToPath
    rw [applyPairs_fst, Bool.true_and, all_eq_false_iff]
    exact exists_congr fun pr => and_congr_right fun _ => by
      rw [applyToLink_fst]
  · unfold applyToPath
    exact applyPairs_snd net sp (pairsOf nodes) true st
  · intro pr hpr i hres
    unfold applyToPath
    exact applyPairs_touches net sp (pairsOf nodes) true st pr hpr i hres
  · cases hn : net.nodeIntfs nodeId with
    | none => simp [applyToNode, hn]
    | some intfs =>
      unfold applyToNode
      rw [hn]
      show (applyIntfs net nodeId sp intfs (true, st2)).1 = false ↔ _
      rw [applyIntfs_fst]
      simp
  · intro intfs hn intf hmem hlo
    unfold applyToNode
    rw [hn]
    show containsKey _ (applyIntfs net nodeId sp intfs (true, st2)).2 = true
    exact applyIntfs_touches net nodeId sp intfs (true, st2) intf hmem hlo

/-- A two-node driver oracle: only `h1` facing `r1` resolves. -/
def netW : Net :=
  { getInterface := fun a b => if a == "h1" && b == "r1" then some "h1-eth0" else none,
    nodeIntfs := fun n => if n == "h1" then some ["lo", "h1-eth0"] else none }

/-- A 1% loss spec. -/
def spW : NetemSpec := { loss := some "1%" }

/-- Witness for `claim_C7`: applying to the path `h1 → r1 → x` (whose
second hop does not resolve) still touches `h1`\x27s interface. -/
theorem claim_C7_witness :
    containsKey ("h1" ++ ":" ++ "h1-eth0")
      (applyToPath netW ["h1", "r1", "x"] spW []).2 = true :=
  (claim_C7 netW spW ["h1", "r1", "x"] "h1" [] []).2.2.2.1
    ("h1", "r1") (by decide) "h1-eth0" (by rfl)

/-- C9: clearing a link whose interface resolves but which carries no
impairment state is a successful no-op: it returns `True` and leaves
the impairment-state map unchanged. -/
theorem claim_C9 (net : Net) (src dst intf : String) (st : EngineState)
    (hres : net.getInterface src dst = some intf)
    (hclean : containsKey (src ++ ":" ++ intf) st = false) :
    clearLink net src dst st = (true, st) :=
  clearLink_clean hres hclean

/-- Witness for `claim_C9` on the concrete driver oracle and the empty
engine state. -/
theorem claim_C9_witness : clearLink netW "h1" "r1" [] = (true, []) :=
  claim_C9 netW "h1" "r1" "h1-eth0" [] (by rfl) (by rfl)

/-! ## Duration parsing (`control/scheduler.py`, `_parse_duration`)

`_parse_duration` upper-cases the string; a string not starting with
`PT` goes through `int(...)`; otherwise the `PT` prefix is dropped and
the `H`, `M`, `S` components are consumed in that order, each by
splitting at the first occurrence of the unit letter.  Strings are
modelled as `List Char`; `int(...)` is modelled on the non-negative
decimal literals occurring here (its whitespace/sign tolerance is not
used by any duration string and is not modelled — a non-literal raises,
i.e. `none`). -/

/-- ASCII upper-casing of one character (`str.upper`). -/
def pyUpperChar (c : Char) : Char :=
  if 97 ≤ c.toNat ∧ c.toNat ≤ 122 then Char.ofNat (c.toNat - 32) else c

/-- ASCII decimal digit test. -/
def pyIsDigit (c : Char) : Bool :=
  decide (48 ≤ c.toNat) && decide (c.toNat ≤ 57)

/-- Value of a decimal digit string. -/
def digitsVal (l : List Char) : Nat :=
  l.foldl (fun acc c => acc * 10 + (c.toNat - 48)) 0

/-- Python `int(...)` on the strings reaching it here: a nonempty
all-digit string parses, anything else raises (`none`). -/
def pyIntL (l : List Char) : Option Nat :=
  if l ≠ [] ∧ l.all pyIsDigit = true then some (digitsVal l) else none

/-- `s.split(u, 1)`: the part before the first occurrence of `u` and
the part after it (callers first check `u in s`). -/
def splitFirst (u : Char) : List Char → List Char × List Char
  | [] => ([], [])
  | c :: rest =>
    if c = u then ([], rest)
    else
      let p := splitFirst u rest
      (c :: p.1, p.2)

/-- `u in s`. -/
def containsChar (u : Char) : List Char → Bool
  | [] => false
  | c :: rest => c == u || containsChar u rest

/-- One `if u in s: part, s = s.split(u, 1); seconds += int(part) * mult`
step of `_parse_duration`. -/
def consumeUnit (u : Char) (mult : Nat) (l : List Char) : Option (Nat × List Char) :=
  if containsChar u l then
    let p := splitFirst u l
    (pyIntL p.1).map (fun n => (n * mult, p.2))
  else some (0, l)

/-- `duration_str.startswith('PT')`. -/
def startsWithPT : List Char → Bool
  | c1 :: c2 :: _ => c1 == 'P' && c2 == 'T'
  | _ => false

/-- `ScenarioScheduler._parse_duration` on a character list. -/
def parseDurationL (l0 : List Char) : Option Nat :=
  if startsWithPT (l0.map pyUpperChar) then
    (consumeUnit 'H' 3600 ((l0.map pyUpperChar).drop 2)).bind (fun ph =>
      (consumeUnit 'M' 60 ph.2).bind (fun pm =>
        (consumeUnit 'S' 1 pm.2).map (fun ps => ph.1 + pm.1 + ps.1)))
  else pyIntL (l0.map pyUpperChar)

/-- `ScenarioScheduler._parse_duration`. -/
def parseDuration (s : String) : Option Nat := parseDurationL s.toList

/-- An optional duration component followed by its unit letter. -/
def optComp : Option (List Char) → Char → List Char
  | some l, u => l ++ [u]
  | none, _ => []

/-- Seconds-free value of an optional component. -/
def valComp : Option (List Char) → Nat
  | some l => digitsVal l
  | none => 0

lemma pyUpper_digit {c : Char} (h : pyIsDigit c = true) : pyUpperChar c = c := by
  unfold pyIsDigit at h
  rcases Bool.and_eq_true_iff.mp h with ⟨h1, h2⟩
  have hb1 := of_decide_eq_true h1
  have hb2 := of_decide_eq_true h2
  unfold pyUpperChar
  rw [if_neg (fun hcon => by omega)]

lemma map_pyUpper_id {l : List Char} (h : ∀ c ∈ l, pyUpperChar c = c) :
    l.map pyUpperChar = l := by
  rw [List.map_congr_left h]
  simp

lemma digit_ne {c u : Char} (hc : pyIsDigit c = true) (hu : pyIsDigit u = false) :
    c ≠ u := by
  intro h
  rw [h] at hc
  rw [hc] at hu
  cases hu

lemma containsChar_absent {l : List Char} {u : Char} (h : ∀ c ∈ l, c ≠ u) :
    containsChar u l = false := by
  induction l with
  | nil => rfl
  | cons c rest ih =>
    show (c == u || containsChar u rest) = false
    rw [ih (fun x hx => h x (List.mem_cons_of_mem _ hx)),
      beq_eq_false_iff_ne.mpr (h c (List.mem_cons_self _ _))]
    rfl

lemma containsChar_present {pre suf : List Char} {u : Char}
    (hpre : ∀ c ∈ pre, c ≠ u) :
    containsChar u (pre ++ u :: suf) = true := by
  induction pre with
  | nil =>
    show (u == u || containsChar u suf) = true
    rw [beq_self_eq_true]
    rfl
  | cons c rest ih =>
    show (c == u || containsChar u (rest ++ u :: suf)) = true
    rw [ih (fun x hx => hpre x (List.mem_cons_of_mem _ hx)), Bool.or_true]

lemma splitFirst_append {pre suf : List Char} {u : Char}
    (hpre : ∀ c ∈ pre, c ≠ u) :
    splitFirst u (pre ++ u :: suf) = (pre, suf) := by
  induction pre with
  | nil =>
    show splitFirst u (u :: suf) = ([], suf)
    unfold splitFirst
    rw [if_pos rfl]
  | cons c rest ih =>
    show splitFirst u (c :: (rest ++ u :: suf)) = (c :: rest, suf)
    unfold splitFirst
    rw [if_neg (hpre c (List.mem_cons_self _ _)),
      ih (fun x hx => hpre x (List.mem_cons_of_mem _ hx))]

lemma consumeUnit_present {pre suf : List Char} {u : Char} {mult : Nat}
    (hpre : ∀ c ∈ pre, c ≠ u) (hne : pre ≠ [])
    (hdig : pre.all pyIsDigit = true) :
    consumeUnit u mult (pre ++ u :: suf) = some (digitsVal pre * mult, suf) := by
  unfold consumeUnit
  rw [containsChar_present hpre, if_pos rfl, splitFirst_append hpre]
  dsimp only
  unfold pyIntL
  rw [if_pos ⟨hne, hdig⟩]
  rfl

lemma consumeUnit_absent {l : List Char} {u : Char} {mult : Nat}
    (h : ∀ c ∈ l, c ≠ u) :
    consumeUnit u mult l = some (0, l) := by
  unfold consumeUnit
  rw [containsChar_absent h, if_neg Bool.false_ne_true]

lemma optComp_mem {o : Option (List Char)} {u c : Char}
    (ho : ∀ l, o = some l → l ≠ [] ∧ l.all pyIsDigit = true)
    (hc : c ∈ optComp o u) : pyIsDigit c = true ∨ c = u := by
  cases o with
  | none => simp [optComp] at hc
  | some l =>
    rcases List.mem_append.mp hc with h1 | h1
    · exact Or.inl ((List.all_eq_true.mp (ho l rfl).2) c h1)
    · rcases List.mem_singleton.mp h1 with rfl
      exact Or.inr rfl

lemma consumeUnit_opt (u : Char) (mult : Nat) (o : Option (List Char))
    (suf : List Char)
    (ho : ∀ l, o = some l → l ≠ [] ∧ l.all pyIsDigit = true)
    (hu : pyIsDigit u = false)
    (hsuf : ∀ c ∈ suf, c ≠ u) :
    consumeUnit u mult (optComp o u ++ suf) = some (valComp o * mult, suf) := by
  cases o with
  | none =>
    show consumeUnit u mult ([] ++ suf) = some (0 * mult, suf)
    rw [List.nil_append, consumeUnit_absent hsuf, Nat.zero_mul]
  | some pre =>
    obtain ⟨hne, hdig⟩ := ho pre rfl
    have hpre : ∀ c ∈ pre, c ≠ u :=
      fun c hc => digit_ne (List.all_eq_true.mp hdig c hc) hu
    show consumeUnit u mult ((pre ++ [u]) ++ suf) = some (digitsVal pre * mult, suf)
    rw [List.append_assoc, List.singleton_append]
    exact consumeUnit_present hpre hne hdig

/-- C8: the duration parser maps `PT1H30M` to 5400 seconds and the bare
integer string `90` to 90 seconds; in general `PT[n]H[n]M[n]S` with any
subset of the unit components, in that order, parses to
`h*3600 + m*60 + s`, and a (digit) string not starting with `PT`
parses as an integer number of seconds. -/
theorem claim_C8 :
    parseDuration "PT1H30M" = some 5400
    ∧ parseDuration "90" = some 90
    ∧ (∀ hs ms ss : Option (List Char),
        (∀ l, hs = some l → l ≠ [] ∧ l.all pyIsDigit = true) →
        (∀ l, ms = some l → l ≠ [] ∧ l.all pyIsDigit = true) →
        (∀ l, ss = some l → l ≠ [] ∧ l.all pyIsDigit = true) →
        parseDurationL ('P' :: 'T' ::
            (optComp hs 'H' ++ optComp ms 'M' ++ optComp ss 'S'))
          = some (valComp hs * 3600 + valComp ms * 60 + valComp ss * 1))
    ∧ (∀ l : List Char, l ≠ [] → l.all pyIsDigit = true →
        parseDurationL l = some (digitsVal l)) := by
  refine ⟨by decide, by decide, ?_, ?_⟩
  · intro hs ms ss hh hm hss
    rw [List.append_assoc]
    have hnoH : ∀ c ∈ optComp ms 'M' ++ optComp ss 'S', c ≠ 'H' := by
      intro c hc
      rcases List.mem_append.mp hc with h1 | h1
      · rcases optComp_mem hm h1 with hd | rfl
        · exact digit_ne hd (by decide)
        · decide
      · rcases optComp_mem hss h1 with hd | rfl
        · exact digit_ne hd (by decide)
        · decide
    have hnoM : ∀ c ∈ optComp ss 'S', c ≠ 'M' := by
      intro c hc
      rcases optComp_mem hss hc with hd | rfl
      · exact digit_ne hd (by decide)
      · decide
    have hH := consumeUnit_opt 'H' 3600 hs (optComp ms 'M' ++ optComp ss 'S')
      hh (by decide) hnoH
    have hM := consumeUnit_opt 'M' 60 ms (optComp ss 'S') hm (by decide) hnoM
    have hS0 := consumeUnit_opt 'S' 1 ss [] hss (by decide)
      (by intro c hc; simp at hc)
    rw [List.append_nil] at hS0
    have hmapbody : (optComp hs 'H' ++ (optComp ms 'M' ++ optComp ss 'S')).map
        pyUpperChar = optComp hs 'H' ++ (optComp ms 'M' ++ optComp ss 'S') := by
      apply map_pyUpper_id
      intro c hc
      rcases List.mem_append.mp hc with h1 | h1
      · rcases optComp_mem hh h1 with hd | rfl
        · exact pyUpper_digit hd
        · decide
      · rcases List.mem_append.mp h1 with h2 | h2
        · rcases optComp_mem hm h2 with hd | rfl
          · exact pyUpper_digit hd
          · decide
        · rcases optComp_mem hss h2 with hd | rfl
          · exact pyUpper_digit hd
          · decide
    unfold parseDurationL
    rw [List.map_cons, List.map_cons, hmapbody,
      show pyUpperChar 'P' = 'P' from by decide,
      show pyUpperChar 'T' = 'T' from by decide]
    rw [show startsWithPT ('P' :: 'T' ::
        (optComp hs 'H' ++ (optComp ms 'M' ++ optComp ss 'S'))) = true from rfl,
      if_pos rfl]
    show (consumeUnit 'H' 3600
        (optComp hs 'H' ++ (optComp ms 'M' ++ optComp ss 'S'))).bind _ = _
    rw [hH]
    show (consumeUnit 'M' 60 (optComp ms 'M' ++ optComp ss 'S')).bind _ = _
    rw [hM]
    show (consumeUnit 'S' 1 (optComp ss 'S')).map _ = _
    rw [hS0]
    rfl
  · intro l hne hdig
    unfold parseDurationL
    rw [map_pyUpper_id (fun c hc => pyUpper_digit (List.all_eq_true.mp hdig c hc))]
    have hsw : startsWithPT l = false := by
      cases l with
      | nil => exact absurd rfl hne
      | cons c1 r1 =>
        cases r1 with
        | nil => rfl
        | cons c2 r2 =>
          show (c1 == 'P' && c2 == 'T') = false
          have hd1 : pyIsDigit c1 = true :=
            List.all_eq_true.mp hdig c1 (List.mem_cons_self _ _)
          rw [beq_eq_false_iff_ne.mpr (digit_ne hd1 (by decide))]
          rfl
    rw [hsw, if_neg Bool.false_ne_true]
    unfold pyIntL
    rw [if_pos ⟨hne, hdig⟩]

/-- Witness for `claim_C8` at the concrete duration `PT4H2M7S`. -/
theorem claim_C8_witness :
    parseDurationL ('P' :: 'T' ::
        (optComp (some ['4']) 'H' ++ optComp (some ['2']) 'M'
          ++ optComp (some ['7']) 'S'))
      = some (valComp (some ['4']) * 3600 + valComp (some ['2']) * 60
          + valComp (some ['7']) * 1) :=
  claim_C8.2.2.1 (some ['4']) (some ['2']) (some ['7'])
    (by intro l h; cases h; exact ⟨by decide, by decide⟩)
    (by intro l h; cases h; exact ⟨by decide, by decide⟩)
    (by intro l h; cases h; exact ⟨by decide, by decide⟩)

/-! ## Scenario scheduler (`control/scheduler.py`)

Wall-clock time is passed in explicitly (`datetime.utcnow()` at the
moment `_start_scenario` runs); APScheduler jobs are modelled by their
id strings (`add_job` with `replace_existing=True` keeps an existing
id); the optional event logger is modelled as always present, the event
log being the observation. -/

/-- The event types emitted by the scheduler. -/
inductive EventType where
  | scenarioStarted
  | scenarioEnded
  | scenarioFailed
  | impairmentApplied
  | impairmentRemoved
deriving DecidableEq, Repr

/-- One entry of `active_scenarios`: `{start_time, end_time}` (the
scenario object itself is keyed by its id). -/
structure ActiveInstance where
  startTime : Nat
  endTime : Nat
deriving DecidableEq, Repr

/-- The scheduler state: the active-scenario map, the armed job ids,
the emitted events and the impairment-engine state. -/
structure SchedState where
  active : List (String × ActiveInstance)
  jobs : List String
  events : List (EventType × String)
  engine : EngineState
deriving DecidableEq, Repr

/-- `scheduler.add_job(..., id, replace_existing=True)`. -/
def addJob (j : String) (jobs : List String) : List String :=
  if jobs.contains j then jobs else jobs ++ [j]

/-- `del`/`filter` of a key from an association list. -/
def eraseKey {α : Type} (k : String) (l : List (String × α)) : List (String × α) :=
  l.filter (fun p => !(p.1 == k))

/-- Shared tail of `_apply_scenario`/`_remove_scenario`: on success log
the impairment event, on failure just keep the (possibly partially
updated) engine state. -/
def engineResult (ev : EventType) (scid : String) (r : Bool × EngineState)
    (st : SchedState) : Bool × SchedState :=
  if r.1 then
    (true, { st with engine := r.2, events := st.events ++ [(ev, scid)] })
  else (false, { st with engine := r.2 })

/-- `ScenarioScheduler._apply_scenario`: parse the target (an exception
is caught and maps to failure), dispatch on its shape; scenarios with
no netem impairment succeed without touching the engine (the other
impairment kinds are an unimplemented TODO in the source).  A link
target whose peer is missing (`link:a`) never resolves an interface. -/
def applyScenarioS (net : Net) (sc : Scenario) (st : SchedState) :
    Bool × SchedState :=
  match parseTarget sc.applies_to with
  | .error _ => (false, st)
  | .ok tgt =>
    match sc.netem with
    | none => (true, st)
    | some sp =>
      engineResult EventType.impairmentApplied sc.id
        (match tgt with
         | Target.link s d =>
           match d with
           | some d2 => applyToLink net s d2 sp st.engine
           | none => (false, st.engine)
         | Target.path ns => applyToPath net ns sp st.engine
         | Target.node nid => applyToNode net nid sp st.engine) st

/-- `ScenarioScheduler._remove_scenario`. -/
def removeScenarioS (net : Net) (sc : Scenario) (st : SchedState) :
    Bool × SchedState :=
  match parseTarget sc.applies_to with
  | .error _ => (false, st)
  | .ok tgt =>
    match sc.netem with
    | none => (true, st)
    | some _ =>
      engineResult EventType.impairmentRemoved sc.id
        (match tgt with
         | Target.link s d =>
           match d with
           | some d2 => clearLink net s d2 st.engine
           | none => (false, st.engine)
         | Target.path ns => clearPath net ns st.engine
         | Target.node nid => clearNode net nid st.engine) st

/-- `ScenarioScheduler._start_scenario`: a no-op when the scenario is
already active; otherwise apply, and only on success record the
instance, log the start event and arm the end timer. -/
def startScenario (net : Net) (now : Nat) (sc : Scenario) (durationSeconds : Nat)
    (st : SchedState) : SchedState :=
  if containsKey sc.id st.active then st
  else if (applyScenarioS net sc st).1 then
    { (applyScenarioS net sc st).2 with
      active := (applyScenarioS net sc st).2.active ++
        [(sc.id, { startTime := now, endTime := now + durationSeconds })],
      events := (applyScenarioS net sc st).2.events
        ++ [(EventType.scenarioStarted, sc.id)],
      jobs := addJob ("end_" ++ sc.id) (applyScenarioS net sc st).2.jobs }
  else
    { (applyScenarioS net sc st).2 with
      events := (applyScenarioS net sc st).2.events
        ++ [(EventType.scenarioFailed, sc.id)] }

/-- `ScenarioScheduler._end_scenario`: a no-op when the scenario is not
active; otherwise clear the impairments (ignoring clear failure),
unconditionally delete the active instance and log the end event. -/
def endScenario (net : Net) (sc : Scenario) (st : SchedState) : SchedState :=
  if containsKey sc.id st.active then
    { (removeScenarioS net sc st).2 with
      active := eraseKey sc.id (removeScenarioS net sc st).2.active,
      events := (removeScenarioS net sc st).2.events
        ++ [(EventType.scenarioEnded, sc.id)] }
  else st

lemma engineResult_frame (ev : EventType) (scid : String)
    (r : Bool × EngineState) (st : SchedState) :
    (engineResult ev scid r st).2.active = st.active
    ∧ (engineResult ev scid r st).2.jobs = st.jobs := by
  unfold engineResult
  split
  · exact ⟨rfl, rfl⟩
  · exact ⟨rfl, rfl⟩

/-- Applying a scenario never touches the active map or the job list. -/
lemma applyScenarioS_frame (net : Net) (sc : Scenario) (st : SchedState) :
    (applyScenarioS net sc st).2.active = st.active
    ∧ (applyScenarioS net sc st).2.jobs = st.jobs := by
  unfold applyScenarioS
  split
  · exact ⟨rfl, rfl⟩
  · split
    · exact ⟨rfl, rfl⟩
    · exact engineResult_frame _ _ _ _

lemma removeScenarioS_frame (net : Net) (sc : Scenario) (st : SchedState) :
    (removeScenarioS net sc st).2.active = st.active
    ∧ (removeScenarioS net sc st).2.jobs = st.jobs := by
  unfold removeScenarioS
  split
  · exact ⟨rfl, rfl⟩
  · split
    · exact ⟨rfl, rfl⟩
    · exact engineResult_frame _ _ _ _

attribute [irreducible] applyScenarioS

attribute [irreducible] removeScenarioS

lemma containsKey_iff_mem_keys {α : Type} {k : String} {l : List (String × α)} :
    containsKey k l = true ↔ k ∈ l.map Prod.fst := by
  unfold containsKey
  rw [List.any_eq_true]
  constructor
  · rintro ⟨p, hp, hpk⟩
    exact List.mem_map.mpr ⟨p, hp, by simpa using hpk⟩
  · intro h
    rcases List.mem_map.mp h with ⟨p, hp, hpk⟩
    exact ⟨p, hp, by simpa using hpk⟩

lemma containsKey_eraseKey {α : Type} (k : String) (l : List (String × α)) :
    containsKey k (eraseKey k l) = false := by
  induction l with
  | nil => rfl
  | cons p rest ih =>
    unfold eraseKey at ih ⊢
    rw [List.filter_cons]
    cases h : p.1 == k with
    | true =>
      rw [if_neg (by simp)]
      exact ih
    | false =>
      rw [if_pos (by decide)]
      show (p.1 == k || containsKey k (List.filter (fun p => !(p.1 == k)) rest)) = false
      rw [h, ih]
      rfl

lemma nodup_keys_append_one {α : Type} {l : List (String × α)} {k : String}
    (v : α) (hnd : (l.map Prod.fst).Nodup) (hk : containsKey k l = false) :
    ((l ++ [(k, v)]).map Prod.fst).Nodup := by
  rw [List.map_append, List.nodup_append]
  refine ⟨hnd, by simp, ?_⟩
  intro x hx hx2
  have hxk : x = k := by simpa using hx2
  subst hxk
  have hm := containsKey_iff_mem_keys.mpr hx
  rw [hm] at hk
  cases hk

set_option maxHeartbeats 1600000 in
/-- C5: at most one active instance per scenario id.  Starting an
already-active scenario is a complete no-op (no state change, no second
instance, no second end timer); the active-key list stays duplicate
free; when the impairment application fails the scenario does not enter
the active map and no end timer is armed; when it succeeds exactly one
instance with `endTime = now + duration` is appended. -/
theorem claim_C5 (net : Net) (now : Nat) (sc : Scenario) (dur : Nat)
    (st : SchedState) :
    (containsKey sc.id st.active = true → startScenario net now sc dur st = st)
    ∧ ((st.active.map Prod.fst).Nodup →
        (((startScenario net now sc dur st).active.map Prod.fst)).Nodup)
    ∧ (containsKey sc.id st.active = false →
        (applyScenarioS net sc st).1 = false →
        (startScenario net now sc dur st).active = st.active
        ∧ (startScenario net now sc dur st).jobs = st.jobs)
    ∧ (containsKey sc.id st.active = false →
        (applyScenarioS net sc st).1 = true →
        (startScenario net now sc dur st).active =
          st.active ++ [(sc.id, { startTime := now, endTime := now + dur })]) := by
  have hstart_pos : containsKey sc.id st.active = true →
      startScenario net now sc dur st = st := by
    intro h
    unfold startScenario
    rw [h, if_pos rfl]
  have hframe := applyScenarioS_frame net sc st
  refine ⟨hstart_pos, ?_, ?_, ?_⟩
  · intro hnd
    cases hck : containsKey sc.id st.active with
    | true => rw [hstart_pos hck]; exact hnd
    | false =>
      unfold startScenario
      rw [hck, if_neg Bool.false_ne_true]
      cases hap : (applyScenarioS net sc st).1 with
      | true =>
        rw [if_pos rfl]
        show (((applyScenarioS net sc st).2.active ++
          [(sc.id, ({ startTime := now, endTime := now + dur } : ActiveInstance))]).map
            Prod.fst).Nodup
        rw [hframe.1]
        exact nodup_keys_append_one _ hnd hck
      | false =>
        rw [if_neg Bool.false_ne_true]
        show (((applyScenarioS net sc st).2.active).map Prod.fst).Nodup
        rw [hframe.1]
        exact hnd
  · intro hck hap
    unfold startScenario
    rw [hck, if_neg Bool.false_ne_true, hap, if_neg Bool.false_ne_true]
    constructor
    · show (applyScenarioS net sc st).2.active = st.active
      exact hframe.1
    · show (applyScenarioS net sc st).2.jobs = st.jobs
      exact hframe.2
  · intro hck hap
    unfold startScenario
    rw [hck, if_neg Bool.false_ne_true, hap, if_pos rfl]
    show (applyScenarioS net sc st).2.active ++
      [(sc.id, ({ startTime := now, endTime := now + dur } : ActiveInstance))] = _
    rw [hframe.1]

set_option maxHeartbeats 1600000 in
/-- C10: ending a scenario that is not active changes no state; ending
an active scenario always removes its instance from the active map and
emits the scenario-ended event as the last event — with no condition on
whether clearing the impairment through the driver succeeded (the
theorem quantifies over every driver oracle, including ones on which
every clear fails). -/
theorem claim_C10 (net : Net) (sc : Scenario) (st : SchedState) :
    (containsKey sc.id st.active = false → endScenario net sc st = st)
    ∧ (containsKey sc.id st.active = true →
        containsKey sc.id (endScenario net sc st).active = false
        ∧ (endScenario net sc st).events.getLast?
            = some (EventType.scenarioEnded, sc.id)) := by
  constructor
  · intro h
    unfold endScenario
    rw [h, if_neg Bool.false_ne_true]
  · intro h
    unfold endScenario
    rw [h, if_pos rfl]
    constructor
    · show containsKey sc.id (eraseKey sc.id (removeScenarioS net sc st).2.active) = false
      exact containsKey_eraseKey _ _
    · show ((removeScenarioS net sc st).2.events
        ++ [(EventType.scenarioEnded, sc.id)]).getLast? = _
      rw [List.getLast?_concat]

/-- A transient scenario targeting `link:h1->r1` with 1% loss. -/
def scW : Scenario :=
  { id := "s1", stype := ScenarioType.transient, applies_to := "link:h1->r1",
    netem := some spW, schedule := some "* * * * *", duration := some "PT1M" }

/-- Scheduler state with `s1` already active. -/
def stActive : SchedState :=
  { active := [("s1", { startTime := 0, endTime := 60 })], jobs := ["end_s1"],
    events := [], engine := [] }

/-- Witness for `claim_C5`: starting `s1` while it is active leaves the
whole scheduler state unchanged. -/
theorem claim_C5_witness :
    startScenario netW 5 scW 60 stActive = stActive :=
  (claim_C5 netW 5 scW 60 stActive).1 (by rfl)

/-- Witness for `claim_C10`: ending the active `s1` removes it from the
active map and the last event is scenario-ended. -/
theorem claim_C10_witness :
    containsKey scW.id (endScenario netW scW stActive).active = false
    ∧ (endScenario netW scW stActive).events.getLast?
        = some (EventType.scenarioEnded, scW.id) :=
  (claim_C10 netW scW stActive).2 (by rfl)

end Netemu
